import Mathlib

/-!
Modiqus core: a shallow embedding of `src/modiqus/src/Core.cpp`.

The control layer of Modiqus is embedded as pure functions over an explicit
`Core` state; a function that changes the state returns the new state.

Modelling conventions

* `F32` values held in the data are rationals (`ℚ`).  The section on binary32
  arithmetic gives the rounding of IEEE 754 binary32 (round to nearest, ties
  to even, every operation rounded once): the conversion of an `S32` to `F32`
  is rounded, and `getMorphTableListIndex` is embedded twice, with exact
  arithmetic (`Core.getMorphTableListIndex`) and with every operation rounded
  and a result that can be an infinity or NaN
  (`Core.getMorphTableListIndexF32`).  The other `F32` operations are exact.
* `S32` values are integers (`Int`), `U32` and `USize` values are naturals
  (`Nat`); where the source can wrap, the wrap is written out with
  `% 4294967296`.  Loop counters over a `std::vector` do not wrap.
* A pointer to a control parameter is the key of the node of
  `_config.controlParams` it points to (nodes of a `std::map` never move), or
  `none` for `NULL`.  Reading through a pointer that is `NULL`, or that points
  to no node, is the fault `Fault.controlParamDeref`.
* The engine (`CsoundWrapper`) is a record holding the log of the calls made to
  it and the answers it gives to queries.
* Constants declared in headers that are not part of the sources are the
  fields of `Constants`, a parameter of every function that reads one.
* Logging (`MQ_LOG`) has no effect on the state and is left out.
-/

namespace modiqus

/-! ## Scalars and constants -/

/-- The constant `UINT_MAX` of `<climits>` for a 32 bit `unsigned`. -/
def UINT_MAX : Nat := 4294967295

/-- Modelled from the spec: `INDEX_INVALID` is declared in `types.h`, which is
not among the sources.  It is the sentinel that is no valid index, `-1`: the
value from which the first increment of the instance counter gives instance
`0` (spec 4.3 and 8.4) and which `getMorphTableListIndex` can tell from every
position of the modifier list. -/
def INDEX_INVALID : Int := -1

/-- Two's complement wrap of an integer into the `S32` range. -/
def wrapS32 (x : Int) : Int := (x + 2147483648) % 4294967296 - 2147483648

/-- The conversion of an `S32` to `U32`. -/
def toU32 (x : Int) : Nat := (x % 4294967296).toNat

/-- The conversion `(S32)value` of an `F32`: truncation toward zero. -/
def truncS32 (value : ℚ) : Int := if 0 ≤ value then ⌊value⌋ else ⌈value⌉

/-- The enumeration `SoundParamType` without its end marker
`SOUND_PARAM_UNDEFINED`. -/
inductive SoundParamType where
  | NOTE_DURATION
  | NOTE_AMPLITUDE
  | GRAIN_DENSITY
  | GRAIN_SPATIAL_POSITION
  deriving DecidableEq, Repr

/-- The constants of `types.h` read by `Core.cpp`; the header is not among the
sources, so their values are parameters.  `DEBUG` tells whether the
`#ifdef DEBUG` blocks are compiled in; `SoundParamNames` is the table of the
names of the sound parameters. -/
structure Constants where
  MAX_INSTANCES : Int -- S32
  TABLE_BASE_OFFSET : Nat -- U32
  TABLE_UNDEFINED : Int -- S32
  TABLE_SIZE_MEDIUM : Nat -- USize
  INSTR_PARTIKKEL : Int -- InstrumentType
  INSTR_TABLE_MORPH : Int -- InstrumentType
  INSTR_MONITOR_I : Int -- InstrumentType
  INSTR_MONITOR_K : Int -- InstrumentType
  UNDEFINED_INT : Int -- S32
  UNDEFINED_STR : String
  DEBUG : Bool
  SoundParamNames : SoundParamType → String

/-! ## Data model -/

/-- One entry of `soundParams`. -/
structure mqSoundParam where
  type : SoundParamType
  min : ℚ
  max : ℚ
  defaultVal : ℚ

/-- A control parameter of the configuration. -/
structure mqControlParam where
  name : String
  min : ℚ
  max : ℚ
  value : ℚ

/-- The argument of `updateControlParam`. -/
structure mqParamUpdate where
  name : String
  value : ℚ

/-- One breakpoint of a segment table. -/
structure mqSegment where
  value : ℚ
  length : ℚ

/-- A piecewise linear table. -/
structure mqSegmentTable where
  number : Int
  size : Nat
  segments : List mqSegment

/-- A table of literal values. -/
structure mqImmediateTable where
  number : Int
  size : Nat
  values : List ℚ

/-- A table backed by a sound file. -/
structure mqSampleTable where
  number : Int
  size : Nat
  filename : String

/-- One morph vertex of a mapping. -/
structure mqModifier where
  controlValue : ℚ
  minTable : mqSegmentTable
  maxTable : mqSegmentTable

/-- The enumeration `mqMapping::Type`.  `Core.cpp` compares its values with
`<` and `>`: `type < UNDEFINED` selects the types that use the min side and
`type > SEGMENT` the types that use the max and intra sides, which fixes the
order `CONSTANT`, `SEGMENT` below `RANGE`, `MASK`, and all four below
`UNDEFINED`. -/
inductive MappingType where
  | CONSTANT
  | SEGMENT
  | RANGE
  | MASK
  | UNDEFINED
  deriving DecidableEq, Repr

/-- The integer value of a mapping type. -/
def MappingType.toNat : MappingType → Nat
  | .CONSTANT => 0
  | .SEGMENT => 1
  | .RANGE => 2
  | .MASK => 3
  | .UNDEFINED => 4

/-- A mapping of one sound parameter.  `controlParam` is the pointer to the
bound control parameter. -/
structure mqMapping where
  type : MappingType
  controlParam : Option String
  morphMinTable : mqSegmentTable
  morphMinTableTable : mqImmediateTable
  morphMaxTable : mqSegmentTable
  morphMaxTableTable : mqImmediateTable
  morphIntraTable : mqSegmentTable
  morphIntraTableTable : mqImmediateTable
  modifiers : List mqModifier

/-- A sound of the configuration; `mappings` is the array indexed by
`SoundParamType`. -/
structure mqSound where
  name : String
  grainWaveTable : mqSampleTable
  grainStart : ℚ
  grainDuration : Int
  mappings : SoundParamType → mqMapping

/-- The argument of `playSound` and `stopSound`. -/
structure mqSoundInfo where
  sourceName : String
  sourceEvent : String
  soundInstance : Int -- S32
  soundInstanceString : String
  soundCompleteName : String

/-- The configuration; the two `std::map`s are association lists. -/
structure mqConfig where
  sounds : List (String × mqSound)
  controlParams : List (String × mqControlParam)
  baseTableNumber : Nat

/-! ## The engine -/

/-- One token of a score message: the source builds a message as a string of
tokens, each a literal or the `toString` of a number; `quoted` is a text
between double quotes. -/
inductive Token where
  | text (s : String)
  | s32 (value : Int)
  | f32 (value : ℚ)
  | quoted (s : String)

/-- A score message, as the list of its tokens. -/
abbrev Message := List Token

/-- A call made to the engine. -/
inductive EngineCall where
  | sendMessage (message : Message)
  | deleteTable (number : Int)
  | createSampleTable (table : mqSampleTable)
  | createImmediateTable (table : mqImmediateTable)
  | createSegmentTable (table : mqSegmentTable)
  | setChannelControlInput (value : ℚ) (channelName : String)

/-- The engine as seen from the core: `calls` is the log of the calls made to
it, oldest first; the other fields are its answers to the queries
`getControlPeriodDuration`, `tableExists` and `getTableData` (the contents it
leaves in the caller's buffer).  How the engine changes its tables in response
to a command is its own business: a command only enters the log. -/
structure CsoundWrapper where
  calls : List EngineCall
  controlPeriodDuration : ℚ
  tableExists : Int → Bool
  tableData : Int → List ℚ → List ℚ

/-- The call `_wrapper.sendMessage(message)`. -/
def CsoundWrapper.sendMessage (w : CsoundWrapper) (message : Message) : CsoundWrapper :=
  { w with calls := w.calls ++ [EngineCall.sendMessage message] }

/-! ## The core state -/

/-- The state of the random number generator behind `random01`: the sequence
of its draws and the number of draws made. -/
structure RandomSource where
  draws : Nat → ℚ
  pos : Nat

/-- The members of `Core` together with the process wide random source. -/
structure Core where
  _wrapper : CsoundWrapper
  _config : mqConfig
  _mode : Int -- S32
  _nextInstance : Int -- S32
  _nextTableNumber : Nat -- U32
  soundParams : SoundParamType → mqSoundParam
  random : RandomSource

/-- What the source leaves undefined. -/
inductive Fault where
  | controlParamDeref
  | zeroInterval
  | outOfRange
  deriving DecidableEq, Repr

/-! ## Helpers of the absent utility headers -/

/-- Modelled from the spec: `clamp` of `math_utils.h`, absent from the sources.
It returns the value clamped into `[min, max]`; `setSoundParam` uses it as
`value = clamp(value, min, max)`. -/
def clamp (value min max : ℚ) : ℚ :=
  if value < min then min else if max < value then max else value

/-- Modelled from the spec: `mapGet` of the absent utility header: the pointer
to the entry stored under `name`, or `NULL` when there is none. -/
def mapGet {α : Type} (name : String) : List (String × α) → Option α
  | [] => none
  | (key, entry) :: rest => if key = name then some entry else mapGet name rest

/-- The write `entry->field = ...` through a pointer obtained from `mapGet`:
the entry stored under `name` is replaced. -/
def mapStore {α : Type} (name : String) (entry : α) : List (String × α) → List (String × α)
  | [] => []
  | (key, old) :: rest =>
    if key = name then (key, entry) :: rest else (key, old) :: mapStore name entry rest

/-- Modelled from the spec: `toString<S32>` of the absent utility header, the
decimal text of an integer. -/
def toStringS32 (value : Int) : String := toString value

/-- The text `stream << std::setfill(fill) << std::setw(width) << value`
leaves in an empty stream: the decimal text of `value`, right adjusted, with
`fill` in front up to the width. -/
def streamFillWidth (fill : Char) (width : Nat) (value : Int) : String :=
  String.mk (List.replicate (width - (toStringS32 value).length) fill) ++ toStringS32 value

/-- The number a text of decimal digits denotes. -/
def decimalValue (digits : List Char) : Nat :=
  digits.foldl (fun value digit => value * 10 + (digit.toNat - 48)) 0

/-- Modelled from the spec: `random01` of `math_utils.h`, absent from the
sources: the next draw of the random source. -/
def random01 (s : Core) : ℚ × Core :=
  (s.random.draws s.random.pos, { s with random := { s.random with pos := s.random.pos + 1 } })

/-- The control parameter a pointer points to. -/
def Core.deref (s : Core) (controlParam : Option String) : Option mqControlParam :=
  match controlParam with
  | none => none
  | some key => mapGet key s._config.controlParams

/-! ## Binary32 arithmetic -/

/-!
`F32` is `float`, taken as IEEE 754 binary32 in its default mode: every
operation is rounded once, to the nearest value with ties to even, underflow
is gradual (the subnormal values are kept) and a result beyond the finite
range is an infinity.  Finite values are rationals; the sign of a zero is not
kept.
-/

/-- Rounding of a rational to the nearest integer, a tie going to the even
neighbour. -/
def roundHalfEven (t : ℚ) : Int :=
  if t - ⌊t⌋ < 1 / 2 then ⌊t⌋
  else if 1 / 2 < t - ⌊t⌋ then ⌊t⌋ + 1
  else if ⌊t⌋ % 2 = 0 then ⌊t⌋ else ⌊t⌋ + 1

/-- The exponent of the spacing of the binary32 values around `x`: 24
significant bits, and the spacing `2 ^ (-149)` of the subnormal values as the
least. -/
def F32.quantum (x : ℚ) : Int := max (-149) (Int.log 2 |x| - 23)

/-- The binary32 value nearest to `x`, ties to even, the exponent range taken
as unbounded above. -/
def F32.nearest (x : ℚ) : ℚ :=
  (roundHalfEven (x / 2 ^ F32.quantum x) : ℚ) * 2 ^ F32.quantum x

/-- The greatest finite binary32 value, `FLT_MAX`. -/
def F32.maxFinite : ℚ := (2 ^ 24 - 1) * 2 ^ 104

/-- The result of an `F32` operation: a finite value, an infinity or NaN.  The
sign of a zero is not kept. -/
inductive F32 where
  | finite (value : ℚ)
  | posInf
  | negInf
  | nan
  deriving DecidableEq

/-- The rounding of an exact result to `F32`: to the nearest value, ties to
even, and to an infinity beyond `FLT_MAX`. -/
def F32.round (x : ℚ) : F32 :=
  if F32.maxFinite < F32.nearest x then F32.posInf
  else if F32.nearest x < -F32.maxFinite then F32.negInf
  else F32.finite (F32.nearest x)

/-- The conversion of an `S32` to `F32`; it never leaves the finite range. -/
def F32.ofS32 (n : Int) : ℚ := F32.nearest (n : ℚ)

/-- The negation of an `F32`. -/
def F32.neg : F32 → F32
  | .finite a => .finite (-a)
  | .posInf => .negInf
  | .negInf => .posInf
  | .nan => .nan

/-- The sum of two `F32`. -/
def F32.add : F32 → F32 → F32
  | .finite a, .finite b => F32.round (a + b)
  | .nan, _ => .nan
  | _, .nan => .nan
  | .posInf, .negInf => .nan
  | .negInf, .posInf => .nan
  | .posInf, _ => .posInf
  | _, .posInf => .posInf
  | .negInf, _ => .negInf
  | _, .negInf => .negInf

/-- The difference of two `F32`. -/
def F32.sub (a b : F32) : F32 := a.add b.neg

/-- The quotient of two `F32`.  A division by zero is the fault
`zeroInterval`. -/
def F32.div (a b : F32) : Except Fault F32 :=
  match b with
  | .finite d =>
    if d = 0 then .error Fault.zeroInterval
    else
      match a with
      | .finite n => .ok (F32.round (n / d))
      | .posInf => .ok (if 0 < d then .posInf else .negInf)
      | .negInf => .ok (if 0 < d then .negInf else .posInf)
      | .nan => .ok .nan
  | .nan => .ok .nan
  | _ =>
    match a with
    | .finite _ => .ok (.finite 0)
    | _ => .ok .nan

/-! ## Control parameter updates -/

/-- The function `Core::updateControlParam`.  The result of `clamp` is not
used and `update` is `const`: the value stored is `update.value`. -/
def Core.updateControlParam (s : Core) (update : mqParamUpdate) : Core :=
  match mapGet update.name s._config.controlParams with
  | none => s
  | some controlParam =>
    let _unused := clamp update.value controlParam.min controlParam.max
    { s with _config := { s._config with
        controlParams :=
          mapStore update.name { controlParam with value := update.value }
            s._config.controlParams } }

/-- The function `Core::updateControlParams`. -/
def Core.updateControlParams (s : Core) : List mqParamUpdate → Core
  | [] => s
  | update :: rest => Core.updateControlParams (s.updateControlParam update) rest

/-! ## Morph index -/

/-- The loop of `getMorphTableListIndex`: `i` is the loop counter, `index`
the position found so far; every iteration reads `mapping.controlParam->value`. -/
def morphIndexLoop (controlParam : Option mqControlParam) :
    List mqModifier → Nat → Int → Except Fault Int
  | [], _, index => .ok index
  | modifier :: rest, i, index =>
    match controlParam with
    | none => .error Fault.controlParamDeref
    | some cp =>
      morphIndexLoop controlParam rest (i + 1)
        (if cp.value ≥ modifier.controlValue then (i : Int) else index)

/-- The function `Core::getMorphTableListIndex`, in exact arithmetic.  A
division by a difference `delta` that is zero is the fault `zeroInterval`. -/
def Core.getMorphTableListIndex (s : Core) (mapping : mqMapping) : Except Fault ℚ :=
  let numLinks := mapping.modifiers.length
  match morphIndexLoop (s.deref mapping.controlParam) mapping.modifiers 0 INDEX_INVALID with
  | .error fault => .error fault
  | .ok index =>
    if index = INDEX_INVALID then .ok 0
    else
      let lerpValue : ℚ := index
      -- here `numLinks` is at least 1: the unsigned `numLinks - 1` does not wrap
      if index < (numLinks : Int) - 1 then
        match s.deref mapping.controlParam, mapping.modifiers[index.toNat]?,
            mapping.modifiers[index.toNat + 1]? with
        | some cp, some lower, some upper =>
          let relValue := cp.value - lower.controlValue
          let delta := upper.controlValue - lower.controlValue
          if delta = 0 then .error Fault.zeroInterval else .ok (lerpValue + relValue / delta)
        | none, _, _ => .error Fault.controlParamDeref
        | _, _, _ => .error Fault.outOfRange
      else .ok lerpValue

/-- The function `Core::getMorphTableListIndex` in binary32 arithmetic: the
statements of `Core.getMorphTableListIndex`, with the conversion of `index`,
the two subtractions, the division and the addition each rounded to `F32`. -/
def Core.getMorphTableListIndexF32 (s : Core) (mapping : mqMapping) : Except Fault F32 :=
  let numLinks := mapping.modifiers.length
  match morphIndexLoop (s.deref mapping.controlParam) mapping.modifiers 0 INDEX_INVALID with
  | .error fault => .error fault
  | .ok index =>
    if index = INDEX_INVALID then .ok (F32.finite 0)
    else
      let lerpValue : F32 := F32.finite (F32.ofS32 index)
      if index < (numLinks : Int) - 1 then
        match s.deref mapping.controlParam, mapping.modifiers[index.toNat]?,
            mapping.modifiers[index.toNat + 1]? with
        | some cp, some lower, some upper =>
          let relValue := F32.sub (F32.finite cp.value) (F32.finite lower.controlValue)
          let delta := F32.sub (F32.finite upper.controlValue) (F32.finite lower.controlValue)
          match F32.div relValue delta with
          | .error fault => .error fault
          | .ok fraction => .ok (F32.add lerpValue fraction)
        | none, _, _ => .error Fault.controlParamDeref
        | _, _, _ => .error Fault.outOfRange
      else .ok lerpValue

/-! ## Table morphing and mapped values -/

/-- The function `Core::morphTable`: one morph message. -/
def Core.morphTable (K : Constants) (s : Core) (morphIndex : ℚ) (morphTable : Int)
    (morphTableTable : Int) : Core :=
  let message : Message :=
    [Token.text "i", Token.s32 K.INSTR_TABLE_MORPH, Token.text "0",
      Token.f32 s._wrapper.controlPeriodDuration, Token.f32 morphIndex,
      Token.s32 morphTableTable, Token.s32 morphTable]
  { s with _wrapper := s._wrapper.sendMessage message }

/-- The test of the `#ifdef DEBUG` blocks of `morphTables`, false in a release
build. -/
def Core.debugTableMissing (K : Constants) (s : Core) (table : Int) : Bool :=
  K.DEBUG && (table == K.TABLE_UNDEFINED || !s._wrapper.tableExists table)

/-- The second half of `Core::morphTables`, from `if (mapping.type > SEGMENT)`. -/
def Core.morphTablesMax (K : Constants) (s : Core) (mapping : mqMapping) (morphIndex : ℚ) :
    Core :=
  if MappingType.SEGMENT.toNat < mapping.type.toNat then
    if s.debugTableMissing K mapping.morphMaxTable.number then s
    else if s.debugTableMissing K mapping.morphMaxTableTable.number then s
    else
      let s1 := s.morphTable K morphIndex mapping.morphMaxTable.number
        mapping.morphMaxTableTable.number
      if s1.debugTableMissing K mapping.morphIntraTable.number then s1
      else if s1.debugTableMissing K mapping.morphIntraTableTable.number then s1
      else
        let draw := random01 s1
        draw.2.morphTable K draw.1 mapping.morphIntraTable.number
          mapping.morphIntraTableTable.number
  else s

/-- The function `Core::morphTables`. -/
def Core.morphTables (K : Constants) (s : Core) (mapping : mqMapping) : Except Fault Core :=
  match s.getMorphTableListIndex mapping with
  | .error fault => .error fault
  | .ok morphIndex =>
    if mapping.type.toNat < MappingType.UNDEFINED.toNat then
      if s.debugTableMissing K mapping.morphMinTable.number then .ok s
      else if s.debugTableMissing K mapping.morphMinTableTable.number then .ok s
      else
        .ok (Core.morphTablesMax K
          (s.morphTable K morphIndex mapping.morphMinTable.number
            mapping.morphMinTableTable.number) mapping morphIndex)
    else .ok (Core.morphTablesMax K s mapping morphIndex)

/-- The function `Core::getMappedValue`: the value returned and the state
after the call.  The assignment of a table number to `value` converts an
`S32` to `F32`, and `(S32)value` converts it back. -/
def Core.getMappedValue (K : Constants) (s : Core) (sound : mqSound)
    (soundParamType : SoundParamType) : Except Fault (ℚ × Core) :=
  let value : ℚ := (s.soundParams soundParamType).defaultVal
  let mapping := sound.mappings soundParamType
  if mapping.controlParam ≠ none then
    match s.morphTables K mapping with
    | .error fault => .error fault
    | .ok s1 =>
      let value1 : ℚ :=
        if mapping.type = MappingType.CONSTANT ∨ mapping.type = MappingType.SEGMENT then
          F32.ofS32 mapping.morphMinTable.number
        else if mapping.type = MappingType.RANGE ∨ mapping.type = MappingType.MASK then
          F32.ofS32 mapping.morphIntraTable.number
        else value
      if soundParamType = SoundParamType.NOTE_DURATION then
        let inData := s1._wrapper.tableData (truncS32 value1)
          (List.replicate K.TABLE_SIZE_MEDIUM 0)
        match inData.head? with
        | none => .error Fault.outOfRange
        | some first => .ok (first, s1)
      else .ok (value1, s1)
  else .ok (value, s)

/-! ## Instance and table numbers -/

/-- The function `Core::getNewInstanceNumber`: the number returned and the
state after the call. -/
def Core.getNewInstanceNumber (K : Constants) (s : Core) : Nat × Core :=
  let incremented := wrapS32 (s._nextInstance + 1)
  let next := if incremented.tmod K.MAX_INSTANCES = 0 then 0 else incremented
  (toU32 next, { s with _nextInstance := next })

/-- The function `Core::getInstanceString`. -/
def getInstanceString (instrument : Int) (inst : Int) : String :=
  toStringS32 instrument ++ "." ++ streamFillWidth '0' 6 inst

/-- The function `Core::getNewTableNumber`: the number returned and the state
after the call. -/
def Core.getNewTableNumber (s : Core) : Nat × Core :=
  let incremented := (s._nextTableNumber + 1) % 4294967296
  let next := if incremented = UINT_MAX then 0 else incremented
  (next, { s with _nextTableNumber := next })

/-- The function `Core::updateBaseTableNumber`. -/
def Core.updateBaseTableNumber (s : Core) (number : Nat) : Core :=
  if number ≤ s._nextTableNumber then
    { s with _config := { s._config with baseTableNumber := s._nextTableNumber } }
  else
    { s with _nextTableNumber := number,
             _config := { s._config with baseTableNumber := number } }

/-- The state `Core::start` leaves for the table counters: both at
`TABLE_BASE_OFFSET`. -/
def Core.startTableNumbers (K : Constants) (s : Core) : Core :=
  { s with _config := { s._config with baseTableNumber := K.TABLE_BASE_OFFSET },
           _nextTableNumber := K.TABLE_BASE_OFFSET }

/-- The numbers returned by `n` consecutive calls of `getNewTableNumber`, in
call order, and the state after them. -/
def Core.tableNumbers : Nat → Core → List Nat × Core
  | 0, s => ([], s)
  | n + 1, s =>
    let first := s.getNewTableNumber
    let others := Core.tableNumbers n first.2
    (first.1 :: others.1, others.2)

/-- The numbers returned by `n` consecutive calls of `getNewInstanceNumber`,
in call order, and the state after them. -/
def Core.instanceNumbers (K : Constants) : Nat → Core → List Nat × Core
  | 0, s => ([], s)
  | n + 1, s =>
    let first := s.getNewInstanceNumber K
    let others := Core.instanceNumbers K n first.2
    (first.1 :: others.1, others.2)

/-! ## Engine commands -/

/-- The state `s` after the engine has received `calls` more calls and the
random source has made `draws` more draws. -/
def Core.advance (s : Core) (calls : List EngineCall) (draws : Nat) : Core :=
  { s with
    _wrapper := { s._wrapper with calls := s._wrapper.calls ++ calls },
    random := { s.random with pos := s.random.pos + draws } }

/-- The call `_wrapper.deleteTable(number)`. -/
def Core.deleteTable (s : Core) (number : Int) : Core :=
  { s with _wrapper :=
      { s._wrapper with calls := s._wrapper.calls ++ [EngineCall.deleteTable number] } }

/-- The call `_wrapper.setChannelControlInput(value, channelName)`. -/
def Core.setChannelControlInput (s : Core) (value : ℚ) (channelName : String) : Core :=
  { s with _wrapper :=
      { s._wrapper with
        calls := s._wrapper.calls ++ [EngineCall.setChannelControlInput value channelName] } }

/-- The calls `_wrapper.createSampleTable`, `createImmediateTable` and
`createSegmentTable`: `command` is the call with its table. -/
def Core.sendCreate (s : Core) (command : EngineCall) : Core :=
  { s with _wrapper := { s._wrapper with calls := s._wrapper.calls ++ [command] } }

/-- Modelled from the spec: `getTableData` of the absent `CsoundWrapper`: it
fills the caller's buffer and returns the number of values of the table. -/
def CsoundWrapper.getTableData (w : CsoundWrapper) (number : Int) (buffer : List ℚ) :
    Nat × List ℚ :=
  ((w.tableData number buffer).length, w.tableData number buffer)

/-! ## Playing and stopping sounds -/

/-- The function `Core::getSound`. -/
def Core.getSound (s : Core) (name : String) : Option mqSound :=
  mapGet name s._config.sounds

/-- The function `Core::playSound`: `info` and the state after the call. -/
def Core.playSound (K : Constants) (s : Core) (info : mqSoundInfo) :
    Except Fault (mqSoundInfo × Core) :=
  let allocated := s.getNewInstanceNumber K
  let info1 := { info with soundInstance := wrapS32 (allocated.1 : Int) }
  let s1 := allocated.2
  let soundName := info1.sourceName ++ "." ++ info1.sourceEvent
  match s1.getSound soundName with
  | none => .ok (info1, s1)
  | some sound =>
    if sound.grainWaveTable.number = K.TABLE_UNDEFINED then .ok (info1, s1)
    else
      let info2 := { info1 with
        soundInstanceString := getInstanceString K.INSTR_PARTIKKEL info1.soundInstance }
      let info3 := { info2 with
        soundCompleteName := soundName ++ "." ++ info2.soundInstanceString }
      match s1.getMappedValue K sound SoundParamType.NOTE_DURATION with
      | .error fault => .error fault
      | .ok (duration, s2) =>
        match s2.getMappedValue K sound SoundParamType.NOTE_AMPLITUDE with
        | .error fault => .error fault
        | .ok (amplitude, s3) =>
          match s3.getMappedValue K sound SoundParamType.GRAIN_DENSITY with
          | .error fault => .error fault
          | .ok (density, s4) =>
            match s4.getMappedValue K sound SoundParamType.GRAIN_SPATIAL_POSITION with
            | .error fault => .error fault
            | .ok (position, s5) =>
              let message : Message :=
                [Token.text "i", Token.text info3.soundInstanceString, Token.text "0",
                  Token.f32 duration, Token.s32 sound.grainWaveTable.number,
                  Token.quoted info3.soundCompleteName, Token.f32 amplitude,
                  Token.f32 density, Token.f32 sound.grainStart,
                  Token.s32 sound.grainDuration, Token.f32 position]
              .ok (info3, { s5 with _wrapper := s5._wrapper.sendMessage message })

/-- The function `Core::stopSound`: `info` and the state after the call. -/
def Core.stopSound (K : Constants) (s : Core) (info : mqSoundInfo) : mqSoundInfo × Core :=
  let message : Message :=
    [Token.text "i", Token.text "1", Token.text "0",
      Token.f32 s._wrapper.controlPeriodDuration, Token.text info.soundInstanceString]
  ({ info with
      soundInstance := K.UNDEFINED_INT,
      soundInstanceString := K.UNDEFINED_STR,
      soundCompleteName := K.UNDEFINED_STR },
    { s with _wrapper := s._wrapper.sendMessage message })

/-- The function `Core::setSoundParam`. -/
def Core.setSoundParam (K : Constants) (s : Core) (param : SoundParamType) (value : ℚ)
    (info : mqSoundInfo) : Core :=
  let channelName :=
    info.soundCompleteName ++ "." ++ K.SoundParamNames (s.soundParams param).type
  let clamped := clamp value (s.soundParams param).min (s.soundParams param).max
  s.setChannelControlInput clamped channelName

/-! ## Resetting and clearing -/

/-- The body of the loop over the modifiers in `resetMapping`. -/
def Core.resetModifier (s : Core) (type : MappingType) (modifier : mqModifier) : Core :=
  let s1 :=
    if type.toNat < MappingType.UNDEFINED.toNat then s.deleteTable modifier.minTable.number
    else s
  if MappingType.SEGMENT.toNat < type.toNat then s1.deleteTable modifier.maxTable.number
  else s1

/-- The function `Core::resetMapping`, `none` being the `NULL` mapping: the
state after the call.  The mapping itself is reset by `mqMapping::reset`, which
is not among the sources; every caller discards the mapping afterwards. -/
def Core.resetMapping (s : Core) (mapping : Option mqMapping) : Core :=
  match mapping with
  | none => s
  | some m =>
    let s1 :=
      if m.type.toNat < MappingType.UNDEFINED.toNat then
        (s.deleteTable m.morphMinTable.number).deleteTable m.morphMinTableTable.number
      else s
    let s2 :=
      if MappingType.SEGMENT.toNat < m.type.toNat then
        (((s1.deleteTable m.morphMaxTable.number).deleteTable
          m.morphMaxTableTable.number).deleteTable
          m.morphIntraTable.number).deleteTable m.morphIntraTableTable.number
      else s1
    m.modifiers.foldl (fun state modifier => state.resetModifier m.type modifier) s2

/-- The delete commands `resetMapping` issues for a mapping, in order. -/
def mqMapping.resetCalls (m : mqMapping) : List EngineCall :=
  (if m.type.toNat < MappingType.UNDEFINED.toNat then
      [EngineCall.deleteTable m.morphMinTable.number,
        EngineCall.deleteTable m.morphMinTableTable.number] else []) ++
    (if MappingType.SEGMENT.toNat < m.type.toNat then
      [EngineCall.deleteTable m.morphMaxTable.number,
        EngineCall.deleteTable m.morphMaxTableTable.number,
        EngineCall.deleteTable m.morphIntraTable.number,
        EngineCall.deleteTable m.morphIntraTableTable.number] else []) ++
    m.modifiers.flatMap (fun modifier =>
      (if m.type.toNat < MappingType.UNDEFINED.toNat then
        [EngineCall.deleteTable modifier.minTable.number] else []) ++
      (if MappingType.SEGMENT.toNat < m.type.toNat then
        [EngineCall.deleteTable modifier.maxTable.number] else []))

/-- Modelled from the spec: `mqConfig::reset` of the absent `types.h`: the
configuration without sounds and control parameters. -/
def mqConfig.reset (config : mqConfig) : mqConfig :=
  { config with sounds := [], controlParams := [] }

/-- The body of the loop over the sounds in `clearConfig`; the mappings are
visited in the order of `SoundParamType`. -/
def Core.clearSound (K : Constants) (s : Core) (sound : mqSound) : Core :=
  let s1 :=
    if sound.grainWaveTable.number ≠ K.TABLE_UNDEFINED then
      s.deleteTable sound.grainWaveTable.number
    else s
  [SoundParamType.NOTE_DURATION, SoundParamType.NOTE_AMPLITUDE, SoundParamType.GRAIN_DENSITY,
    SoundParamType.GRAIN_SPATIAL_POSITION].foldl
    (fun state type => state.resetMapping (some (sound.mappings type))) s1

/-- The function `Core::clearConfig`. -/
def Core.clearConfig (K : Constants) (s : Core) : Core :=
  let s1 := s._config.sounds.foldl (fun state entry => state.clearSound K entry.2) s
  { s1 with
    _config := { s1._config.reset with baseTableNumber := K.TABLE_BASE_OFFSET },
    _nextInstance := INDEX_INVALID,
    _nextTableNumber := K.TABLE_BASE_OFFSET }

/-! ## Creating tables -/

/-- The function `Core::createSampleTable`: the table, the sample buffer and
the state after the call. -/
def Core.createSampleTable (K : Constants) (s : Core) (table : mqSampleTable)
    (samples : List ℚ) : mqSampleTable × List ℚ × Core :=
  if s._wrapper.tableExists table.number then (table, samples, s)
  else
    let allocated := s.getNewTableNumber
    let table1 :=
      if table.number = K.TABLE_UNDEFINED then
        { table with number := wrapS32 (allocated.1 : Int) }
      else table
    let s1 := if table.number = K.TABLE_UNDEFINED then allocated.2 else s
    let s2 := s1.sendCreate (EngineCall.createSampleTable table1)
    let data := s2._wrapper.getTableData table1.number samples
    let table2 := { table1 with size := data.1 }
    (table2, data.2, s2.updateBaseTableNumber (toU32 table2.number))

/-- The function `Core::createImmediateTable`: the table and the state after
the call. -/
def Core.createImmediateTable (K : Constants) (s : Core) (table : mqImmediateTable) :
    mqImmediateTable × Core :=
  let allocated := s.getNewTableNumber
  let table1 :=
    if table.number = K.TABLE_UNDEFINED then
      { table with number := wrapS32 (allocated.1 : Int) }
    else table
  let s1 := if table.number = K.TABLE_UNDEFINED then allocated.2 else s
  let s2 := s1.sendCreate (EngineCall.createImmediateTable table1)
  (table1, s2.updateBaseTableNumber (toU32 table1.number))

/-- The function `Core::createLinSegTable`: the table and the state after the
call. -/
def Core.createLinSegTable (K : Constants) (s : Core) (table : mqSegmentTable) :
    mqSegmentTable × Core :=
  let allocated := s.getNewTableNumber
  let table1 :=
    if table.number = K.TABLE_UNDEFINED then
      { table with number := wrapS32 (allocated.1 : Int) }
    else table
  let s1 := if table.number = K.TABLE_UNDEFINED then allocated.2 else s
  let s2 := s1.sendCreate (EngineCall.createSegmentTable table1)
  (table1, s2.updateBaseTableNumber (toU32 table1.number))

/-! ## The wire contract and the sides of a mapping, after the specification -/

/-- The morph message of the wire contract:
`i <morphInstrumentId> 0 <controlPeriod> <morphFraction> <tableOfTablesNumber>
<destinationTableNumber>`. -/
def specMorphMessage (K : Constants) (controlPeriod fraction : ℚ)
    (tableOfTables destination : Int) : Message :=
  [Token.text "i", Token.s32 K.INSTR_TABLE_MORPH, Token.text "0", Token.f32 controlPeriod,
    Token.f32 fraction, Token.s32 tableOfTables, Token.s32 destination]

/-- The table sides the type of a mapping requires, each as the pair of its
table of tables and its destination table: the min side for `CONSTANT` and
`SEGMENT`; the min, max and intra sides for `RANGE` and `MASK`; none for
`UNDEFINED`. -/
def mqMapping.requiredSides (mapping : mqMapping) : List (Int × Int) :=
  match mapping.type with
  | .CONSTANT | .SEGMENT =>
    [(mapping.morphMinTableTable.number, mapping.morphMinTable.number)]
  | .RANGE | .MASK =>
    [(mapping.morphMinTableTable.number, mapping.morphMinTable.number),
      (mapping.morphMaxTableTable.number, mapping.morphMaxTable.number),
      (mapping.morphIntraTableTable.number, mapping.morphIntraTable.number)]
  | .UNDEFINED => []

/-- The call is a morph message for the given side, whatever its fraction. -/
def isMorphOf (K : Constants) (controlPeriod : ℚ) (side : Int × Int) (call : EngineCall) :
    Prop :=
  ∃ fraction, call = EngineCall.sendMessage
    (specMorphMessage K controlPeriod fraction side.1 side.2)

/-! ## Sample data -/

/-- A segment table with the given number and no breakpoints. -/
def sampleSegmentTable (number : Int) : mqSegmentTable :=
  { number := number, size := 0, segments := [] }

/-- An immediate table with the given number and no values. -/
def sampleImmediateTable (number : Int) : mqImmediateTable :=
  { number := number, size := 0, values := [] }

/-- A modifier at the given control value, with tables 1 and 2. -/
def sampleModifier (controlValue : ℚ) : mqModifier :=
  { controlValue := controlValue, minTable := sampleSegmentTable 1,
    maxTable := sampleSegmentTable 2 }

/-- A mapping of the given type and binding with modifiers at the given
control values; its morph tables are numbered 11 to 16. -/
def sampleMapping (type : MappingType) (controlParam : Option String)
    (controlValues : List ℚ) : mqMapping :=
  { type := type, controlParam := controlParam,
    morphMinTable := sampleSegmentTable 11, morphMinTableTable := sampleImmediateTable 12,
    morphMaxTable := sampleSegmentTable 13, morphMaxTableTable := sampleImmediateTable 14,
    morphIntraTable := sampleSegmentTable 15, morphIntraTableTable := sampleImmediateTable 16,
    modifiers := controlValues.map sampleModifier }

/-- The sound parameters as `Core::start` sets them. -/
def startSoundParams : SoundParamType → mqSoundParam
  | .NOTE_DURATION => { type := .NOTE_DURATION, min := 0, max := 2, defaultVal := 1 }
  | .NOTE_AMPLITUDE => { type := .NOTE_AMPLITUDE, min := 0, max := 1, defaultVal := 1 / 2 }
  | .GRAIN_DENSITY => { type := .GRAIN_DENSITY, min := 0, max := 1, defaultVal := 1 / 2 }
  | .GRAIN_SPATIAL_POSITION =>
    { type := .GRAIN_SPATIAL_POSITION, min := 0, max := 1, defaultVal := 1 / 2 }

/-- Sample values for the constants of `types.h`. -/
def sampleConstants : Constants :=
  { MAX_INSTANCES := 4, TABLE_BASE_OFFSET := 100, TABLE_UNDEFINED := -1,
    TABLE_SIZE_MEDIUM := 8, INSTR_PARTIKKEL := 2, INSTR_TABLE_MORPH := 3,
    INSTR_MONITOR_I := 4, INSTR_MONITOR_K := 5, UNDEFINED_INT := -1,
    UNDEFINED_STR := "undefined", DEBUG := false,
    SoundParamNames := fun type =>
      match type with
      | .NOTE_DURATION => "duration"
      | .NOTE_AMPLITUDE => "amplitude"
      | .GRAIN_DENSITY => "density"
      | .GRAIN_SPATIAL_POSITION => "position" }

/-- A core state with one control parameter, `intensity`, ranging over
`[-10, 30]` and holding `value`; no sounds, an engine that has received
nothing, the instance counter reset and the table counter at 100. -/
def sampleCore (value : ℚ) : Core :=
  { _wrapper :=
      { calls := [], controlPeriodDuration := 1 / 100, tableExists := fun _ => false,
        tableData := fun _ buffer => buffer },
    _config :=
      { sounds := [],
        controlParams :=
          [("intensity", { name := "intensity", min := -10, max := 30, value := value })],
        baseTableNumber := 100 },
    _mode := 0,
    _nextInstance := INDEX_INVALID,
    _nextTableNumber := 100,
    soundParams := startSoundParams,
    random := { draws := fun _ => 0, pos := 0 } }

/-- A sound all of whose mappings are the given one. -/
def sampleSound (mapping : mqMapping) : mqSound :=
  { name := "door.open",
    grainWaveTable := { number := 7, size := 0, filename := "door.wav" },
    grainStart := 0, grainDuration := 100, mappings := fun _ => mapping }

/-! ## Start and further sample data -/

/-- The function `Core::start` when the engine starts. -/
def Core.start (K : Constants) (s : Core) (mode : Int) : Core :=
  { s with
    _mode := mode,
    _config := { s._config with baseTableNumber := K.TABLE_BASE_OFFSET },
    _nextTableNumber := K.TABLE_BASE_OFFSET,
    soundParams := startSoundParams }

/-- A sound whose mapping of `type` is the given one and whose other mappings
are unbound, of type `UNDEFINED` and without modifiers. -/
def sampleSoundOne (type : SoundParamType) (mapping : mqMapping) : mqSound :=
  { name := "door.open",
    grainWaveTable := { number := 7, size := 0, filename := "door.wav" },
    grainStart := 0, grainDuration := 100,
    mappings := fun t => if t = type then mapping else sampleMapping .UNDEFINED none [] }

/-- The sample core state with the given sound under the name `door.open`. -/
def sampleCoreWith (sound : mqSound) (value : ℚ) : Core :=
  { sampleCore value with
    _config := { (sampleCore value)._config with sounds := [("door.open", sound)] } }

/-- A request for the sound `door.open`, with instance fields left from an
earlier sound. -/
def sampleInfo : mqSoundInfo :=
  { sourceName := "door", sourceEvent := "open", soundInstance := 7,
    soundInstanceString := "2.000007", soundCompleteName := "door.open.2.000007" }

/-- The sample core state with an engine in which every table exists. -/
def sampleCoreExisting : Core :=
  { sampleCore 0 with
    _wrapper := { (sampleCore 0)._wrapper with tableExists := fun _ => true } }

/-! ## Direct curve interpolation -/

/-- Modelled from the spec: `lerp` of `math_utils.h`, absent from the sources:
the value at `x` of the line through `(x0, y0)` and `(x1, y1)`, called as
`lerp(lowerX, lowerY, upperX, upperY, value)`. -/
def lerp (x0 y0 x1 y1 x : ℚ) : ℚ := y0 + (x - x0) * (y1 - y0) / (x1 - x0)

/-- The loop of `interpolateSoundParam` over the breakpoints, from the pair
`segments[i - 1]`, `segments[i]` on: the state is `(lowerX, lowerY, upperX,
upperY)`, `size` is `table.size` and `rangeX` is `max - min`.  The loop ends
at the `break` or with the last pair. -/
def interpolateLoop (controlParam : mqControlParam) (size rangeX : ℚ) :
    List mqSegment → ℚ × ℚ × ℚ × ℚ → ℚ × ℚ × ℚ × ℚ
  | previous :: next :: rest, (_, _, upperX, _) =>
    let lowerX1 := upperX
    let lowerY1 := previous.value
    let upperX1 := upperX + (previous.length / size * rangeX + controlParam.min)
    let upperY1 := next.value
    if upperX1 > controlParam.value then (lowerX1, lowerY1, upperX1, upperY1)
    else interpolateLoop controlParam size rangeX (next :: rest)
      (lowerX1, lowerY1, upperX1, upperY1)
  | _, state => state

/-- The function `Core::interpolateSoundParam`.  Reading `modifiers[0]` of an
empty list is the fault `outOfRange`. -/
def Core.interpolateSoundParam (K : Constants) (s : Core) (soundParam : mqSoundParam)
    (mapping : mqMapping) : Except Fault ℚ :=
  if mapping.controlParam = none then .ok soundParam.defaultVal
  else
    match mapping.modifiers[0]? with
    | none => .error Fault.outOfRange
    | some first =>
      if first.minTable.number = K.TABLE_UNDEFINED then .ok soundParam.defaultVal
      else
        match s.deref mapping.controlParam with
        | none => .error Fault.controlParamDeref
        | some controlParam =>
          let rangeX := controlParam.max - controlParam.min
          let final := interpolateLoop controlParam (first.minTable.size : ℚ) rangeX
            first.minTable.segments (0, 0, 0, 0)
          .ok (lerp final.1 final.2.1 final.2.2.1 final.2.2.2 controlParam.value)

/-! ## Loading a configuration -/

/-- The function `Core::getLinSegTableData`: the buffer after the call. -/
def Core.getLinSegTableData (s : Core) (table : mqSegmentTable) (data : List ℚ) : List ℚ :=
  (s._wrapper.getTableData table.number data).2

/-- The creation of the tables of one modifier in `loadConfig`. -/
def Core.loadModifier (K : Constants) (s : Core) (modifier : mqModifier) : Core :=
  let s1 :=
    if modifier.minTable.number ≠ K.TABLE_UNDEFINED then
      (s.createLinSegTable K modifier.minTable).2
    else s
  if modifier.maxTable.number ≠ K.TABLE_UNDEFINED then
    (s1.createLinSegTable K modifier.maxTable).2
  else s1

/-- The creation of the tables of one mapping in `loadConfig`, up to the
comment before `morphTables`.  Every table created here has a defined number,
so the create functions leave the tables of the mapping as they are. -/
def Core.loadMappingTables (K : Constants) (s : Core) (mapping : mqMapping) : Core :=
  let s1 :=
    if mapping.morphMinTable.number ≠ K.TABLE_UNDEFINED then
      (s.createLinSegTable K mapping.morphMinTable).2
    else s
  let s2 :=
    if mapping.morphMinTableTable.number ≠ K.TABLE_UNDEFINED then
      (s1.createImmediateTable K mapping.morphMinTableTable).2
    else s1
  let s3 :=
    if mapping.morphMaxTable.number ≠ K.TABLE_UNDEFINED then
      (s2.createLinSegTable K mapping.morphMaxTable).2
    else s2
  let s4 :=
    if mapping.morphMaxTableTable.number ≠ K.TABLE_UNDEFINED then
      (s3.createImmediateTable K mapping.morphMaxTableTable).2
    else s3
  let s5 :=
    if mapping.morphIntraTable.number ≠ K.TABLE_UNDEFINED then
      (s4.createLinSegTable K mapping.morphIntraTable).2
    else s4
  let s6 :=
    if mapping.morphIntraTableTable.number ≠ K.TABLE_UNDEFINED then
      (s5.createImmediateTable K mapping.morphIntraTableTable).2
    else s5
  mapping.modifiers.foldl (fun state modifier => state.loadModifier K modifier) s6

/-- The body of the loop over the mappings in `loadConfig`: the buffer
`dummyData` and the state after it.  The control parameter of a bound mapping
is set to the middle of its range through the pointer. -/
def Core.loadMapping (K : Constants) (s : Core) (mapping : mqMapping) (dummyData : List ℚ) :
    Except Fault (List ℚ × Core) :=
  let centred : Except Fault Core :=
    match mapping.controlParam with
    | none => .ok s
    | some key =>
      match mapGet key s._config.controlParams with
      | none => .error Fault.controlParamDeref
      | some controlParam =>
        .ok { s with _config := { s._config with
          controlParams := mapStore key
            { controlParam with
              value := controlParam.min + 1 / 2 * (controlParam.max - controlParam.min) }
            s._config.controlParams } }
  match centred with
  | .error fault => .error fault
  | .ok s1 =>
    match (s1.loadMappingTables K mapping).morphTables K mapping with
    | .error fault => .error fault
    | .ok s2 =>
      let data1 := s2.getLinSegTableData mapping.morphMinTable dummyData
      let data2 := s2.getLinSegTableData mapping.morphMaxTable data1
      let data3 := s2.getLinSegTableData mapping.morphIntraTable data2
      .ok (data3, s2)

/-- The loop over the mappings of a sound in `loadConfig`, in the order of
`SoundParamType`. -/
def Core.loadMappings (K : Constants) (sound : mqSound) :
    List SoundParamType → Core → List ℚ → Except Fault (List ℚ × Core)
  | [], s, dummyData => .ok (dummyData, s)
  | type :: rest, s, dummyData =>
    match s.loadMapping K (sound.mappings type) dummyData with
    | .error fault => .error fault
    | .ok (data, s1) => Core.loadMappings K sound rest s1 data

/-- The body of the loop over the sounds in `loadConfig`: the sound, the
buffer `dummyData` and the state after it. -/
def Core.loadSound (K : Constants) (s : Core) (sound : mqSound) (dummyData : List ℚ) :
    Except Fault (mqSound × List ℚ × Core) :=
  let created : mqSampleTable × List ℚ × Core :=
    if sound.grainWaveTable.number = K.TABLE_UNDEFINED then (sound.grainWaveTable, dummyData, s)
    else if !s._wrapper.tableExists sound.grainWaveTable.number then
      s.createSampleTable K sound.grainWaveTable dummyData
    else (sound.grainWaveTable, dummyData, s)
  let sound1 := { sound with grainWaveTable := created.1 }
  match Core.loadMappings K sound1
      [SoundParamType.NOTE_DURATION, SoundParamType.NOTE_AMPLITUDE,
        SoundParamType.GRAIN_DENSITY, SoundParamType.GRAIN_SPATIAL_POSITION]
      created.2.2 created.2.1 with
  | .error fault => .error fault
  | .ok (data, s1) => .ok (sound1, data, s1)

/-- The loop over the sounds in `loadConfig`: the sounds, the buffer
`dummyData` and the state after it. -/
def Core.loadSounds (K : Constants) :
    List (String × mqSound) → Core → List ℚ →
      Except Fault (List (String × mqSound) × List ℚ × Core)
  | [], s, dummyData => .ok ([], dummyData, s)
  | (name, sound) :: rest, s, dummyData =>
    match s.loadSound K sound dummyData with
    | .error fault => .error fault
    | .ok (sound1, data, s1) =>
      match Core.loadSounds K rest s1 data with
      | .error fault => .error fault
      | .ok (sounds, data1, s2) => .ok ((name, sound1) :: sounds, data1, s2)

/-- The function `Core::loadConfig`.  `parseConfig` is not among the sources:
`parsed` is the configuration it leaves in `_config`, or `none` when it
fails. -/
def Core.loadConfig (K : Constants) (s : Core) (parsed : Option mqConfig) :
    Except Fault (Bool × Core) :=
  let s0 := { s with _config := s._config.reset }
  match parsed with
  | none => .ok (false, s0)
  | some config =>
    match Core.loadSounds K config.sounds { s0 with _config := config } [] with
    | .error fault => .error fault
    | .ok (sounds, _, s1) =>
      .ok (true, { s1 with
        _config := { s1._config with sounds := sounds },
        _nextInstance := INDEX_INVALID,
        _nextTableNumber := s1._config.baseTableNumber })

/-! ## Sequences of table operations -/

/-- One call of the table registry.  A call of `createSampleTable` comes with
the answers the engine gives to `tableExists` at the time of the call: the
tables of the engine can change between two calls. -/
inductive TableOp where
  | createSampleTable (table : mqSampleTable) (samples : List ℚ) (engineTables : Int → Bool)
  | createImmediateTable (table : mqImmediateTable)
  | createLinSegTable (table : mqSegmentTable)
  | updateBaseTableNumber (number : Nat)
  | getNewTableNumber

/-- The call is a call of `getNewTableNumber`. -/
def TableOp.isAllocation : TableOp → Bool
  | .getNewTableNumber => true
  | _ => false

/-- What a call of the table registry shows of a table number.  `fresh` is a
number assigned by `getNewTableNumber`: the number the call returns, or the
number a create function leaves in a table that came without one.
`registered` is a number passed to `updateBaseTableNumber`, or the number of a
table that came with its number and was sent to the engine.  `existing` is
the number of a table for which a create function has returned without
sending anything to the engine. -/
inductive TableEvent where
  | fresh (number : Nat)
  | registered (number : Nat)
  | existing (number : Nat)

/-- The number of an event. -/
def TableEvent.number : TableEvent → Nat
  | .fresh number => number
  | .registered number => number
  | .existing number => number

/-- The event is a fresh number. -/
def TableEvent.isFresh : TableEvent → Bool
  | .fresh _ => true
  | _ => false

/-- The event is the number of a table that was not sent to the engine. -/
def TableEvent.isExisting : TableEvent → Bool
  | .existing _ => true
  | _ => false

/-- The event of a call of a create function, read from what the call leaves:
`s` is the state before the call and `after` the state after it, `given` the
number of the table before the call and `stored` the number of the table
after it, as the `U32` that `updateBaseTableNumber` takes. -/
def Core.createEvent (K : Constants) (s after : Core) (given stored : Int) : TableEvent :=
  if after._wrapper.calls.length = s._wrapper.calls.length then
    TableEvent.existing (toU32 stored)
  else if given = K.TABLE_UNDEFINED then TableEvent.fresh (toU32 stored)
  else TableEvent.registered (toU32 stored)

/-- The state in which the engine gives the answers `engineTables` to
`tableExists`. -/
def Core.withEngineTables (s : Core) (engineTables : Int → Bool) : Core :=
  { s with _wrapper := { s._wrapper with tableExists := engineTables } }

/-- The state after one call of the table registry and the event of the
call. -/
def Core.tableStep (K : Constants) (s : Core) : TableOp → Core × TableEvent
  | .createSampleTable table samples engineTables =>
    let result := (s.withEngineTables engineTables).createSampleTable K table samples
    (result.2.2,
      (s.withEngineTables engineTables).createEvent K result.2.2 table.number result.1.number)
  | .createImmediateTable table =>
    let result := s.createImmediateTable K table
    (result.2, s.createEvent K result.2 table.number result.1.number)
  | .createLinSegTable table =>
    let result := s.createLinSegTable K table
    (result.2, s.createEvent K result.2 table.number result.1.number)
  | .updateBaseTableNumber number =>
    (s.updateBaseTableNumber number, TableEvent.registered number)
  | .getNewTableNumber => (s.getNewTableNumber.2, TableEvent.fresh s.getNewTableNumber.1)

/-- The state after a sequence of calls of the table registry and the events
of the calls, in order. -/
def Core.tableRun (K : Constants) : List TableOp → Core → Core × List TableEvent
  | [], s => (s, [])
  | op :: rest, s =>
    let first := s.tableStep K op
    let others := Core.tableRun K rest first.1
    (others.1, first.2 :: others.2)

/-- Along the sequence the counter stays so far below `UINT_MAX` that the next
allocation does not reach it. -/
def Core.staysBelowMax (K : Constants) : List TableOp → Core → Prop
  | [], s => s._nextTableNumber + 1 < UINT_MAX
  | op :: rest, s =>
    s._nextTableNumber + 1 < UINT_MAX ∧ Core.staysBelowMax K rest (s.tableStep K op).1

/-- The call is a call of a create function. -/
def TableOp.isCreate : TableOp → Bool
  | .createSampleTable _ _ _ => true
  | .createImmediateTable _ => true
  | .createLinSegTable _ => true
  | _ => false

/-- The number of the table of a create command. -/
def EngineCall.createdNumber : EngineCall → Option Int
  | .createSampleTable table => some table.number
  | .createImmediateTable table => some table.number
  | .createSegmentTable table => some table.number
  | _ => none

/-! ## Sample data for interpolation and loading -/

/-- A control range `[10, 20]` holding `value`, under the name `intensity`. -/
def sampleRangeCore (value : ℚ) : Core :=
  { sampleCore value with
    _config := { (sampleCore value)._config with
      controlParams :=
        [("intensity", { name := "intensity", min := 10, max := 20, value := value })] } }

/-- A bound mapping whose first modifier has, as min table, table 1 of size
100 with breakpoints of values 1, 2, 3 and lengths 50, 50, 0. -/
def sampleCurveMapping : mqMapping :=
  { sampleMapping .SEGMENT (some "intensity") [] with
    modifiers :=
      [{ controlValue := 0,
         minTable :=
           { number := 1, size := 100,
             segments :=
               [{ value := 1, length := 50 }, { value := 2, length := 50 },
                 { value := 3, length := 0 }] },
         maxTable := sampleSegmentTable 2 }] }

/-- A parsed configuration with the sound `door.open`, all of whose mappings
are unbound and have one modifier, and the control parameter `intensity`. -/
def sampleParsedConfig : mqConfig :=
  { sounds := [("door.open", sampleSound (sampleMapping .SEGMENT none [0]))],
    controlParams :=
      [("intensity", { name := "intensity", min := -10, max := 30, value := 5 })],
    baseTableNumber := 100 }

/-! ## Theorems -/

/-! ### Binary32 arithmetic -/

/-- An integer is rounded to itself. -/
theorem roundHalfEven_intCast (k : Int) : roundHalfEven (k : ℚ) = k := by
  simp [roundHalfEven]

/-- Rounding to the nearest integer is monotone. -/
theorem roundHalfEven_mono {t u : ℚ} (h : t ≤ u) : roundHalfEven t ≤ roundHalfEven u := by
  have hfloor : ⌊t⌋ ≤ ⌊u⌋ := Int.floor_mono h
  have ht1 : roundHalfEven t ≤ ⌊t⌋ + 1 := by
    unfold roundHalfEven
    split_ifs <;> omega
  have hu0 : ⌊u⌋ ≤ roundHalfEven u := by
    unfold roundHalfEven
    split_ifs <;> omega
  rcases lt_or_eq_of_le hfloor with hlt | heq
  · omega
  · have hfrac : t - ⌊t⌋ ≤ u - ⌊u⌋ := by
      rw [heq]
      linarith
    unfold roundHalfEven
    rw [heq] at hfrac ⊢
    split_ifs <;> first | omega | (exfalso; linarith)

/-- The powers of two are positive. -/
theorem two_zpow_pos (e : Int) : (0 : ℚ) < 2 ^ e := zpow_pos (by norm_num) e

/-- A value at most a point of the grid of `x` is rounded to at most that
point. -/
theorem F32.nearest_le_of_grid (x : ℚ) (k : Int) (h : x ≤ (k : ℚ) * 2 ^ F32.quantum x) :
    F32.nearest x ≤ (k : ℚ) * 2 ^ F32.quantum x := by
  have hpos := two_zpow_pos (F32.quantum x)
  have hdiv : x / 2 ^ F32.quantum x ≤ (k : ℚ) := by
    rw [div_le_iff₀ hpos]
    exact h
  have hround := roundHalfEven_mono hdiv
  rw [roundHalfEven_intCast] at hround
  unfold F32.nearest
  exact mul_le_mul_of_nonneg_right (by exact_mod_cast hround) (le_of_lt hpos)

/-- A value at least a point of the grid of `x` is rounded to at least that
point. -/
theorem F32.le_nearest_of_grid (x : ℚ) (k : Int) (h : (k : ℚ) * 2 ^ F32.quantum x ≤ x) :
    (k : ℚ) * 2 ^ F32.quantum x ≤ F32.nearest x := by
  have hpos := two_zpow_pos (F32.quantum x)
  have hdiv : (k : ℚ) ≤ x / 2 ^ F32.quantum x := by
    rw [le_div_iff₀ hpos]
    exact h
  have hround := roundHalfEven_mono hdiv
  rw [roundHalfEven_intCast] at hround
  unfold F32.nearest
  exact mul_le_mul_of_nonneg_right (by exact_mod_cast hround) (le_of_lt hpos)

/-- A value that is not negative is rounded to a value that is not negative. -/
theorem F32.nearest_nonneg {x : ℚ} (h : 0 ≤ x) : 0 ≤ F32.nearest x := by
  have := F32.le_nearest_of_grid x 0 (by simpa using h)
  simpa using this

/-- Zero is a binary32 value. -/
theorem F32.nearest_zero : F32.nearest 0 = 0 := by
  simp [F32.nearest, roundHalfEven]

/-- A power of two with a non-negative exponent is an integer. -/
theorem two_zpow_eq_intCast (n : Int) (h : 0 ≤ n) : ∃ k : Int, (2 : ℚ) ^ n = (k : ℚ) := by
  obtain ⟨m, rfl⟩ := Int.eq_ofNat_of_zero_le h
  exact ⟨2 ^ m, by push_cast; rw [zpow_natCast]⟩

/-- The binade of a positive value. -/
theorem F32.log_bounds {x : ℚ} (h : 0 < x) :
    (2 : ℚ) ^ Int.log 2 x ≤ x ∧ x < (2 : ℚ) ^ (Int.log 2 x + 1) := by
  have h1 := Int.zpow_log_le_self (b := 2) (by norm_num) h
  have h2 := Int.lt_zpow_succ_log_self (b := 2) (by norm_num) x
  simp only [Nat.cast_ofNat] at h1 h2
  exact ⟨h1, h2⟩

/-- Rounding to binary32 is monotone on the non-negative rationals. -/
theorem F32.nearest_mono {x y : ℚ} (hx : 0 ≤ x) (h : x ≤ y) :
    F32.nearest x ≤ F32.nearest y := by
  rcases eq_or_lt_of_le hx with hzero | hpos
  · rw [← hzero, F32.nearest_zero]
    exact F32.nearest_nonneg (le_trans hx h)
  · have hypos : 0 < y := lt_of_lt_of_le hpos h
    have hlog : Int.log 2 x ≤ Int.log 2 y := Int.log_mono_right hpos h
    have hqx : F32.quantum x = max (-149) (Int.log 2 x - 23) := by
      simp [F32.quantum, abs_of_pos hpos]
    have hqy : F32.quantum y = max (-149) (Int.log 2 y - 23) := by
      simp [F32.quantum, abs_of_pos hypos]
    have hq : F32.quantum x ≤ F32.quantum y := by
      rw [hqx, hqy]
      exact max_le_max le_rfl (by omega)
    rcases eq_or_lt_of_le hq with heq | hlt
    · unfold F32.nearest
      rw [heq]
      have hp := two_zpow_pos (F32.quantum y)
      have hdiv : x / 2 ^ F32.quantum y ≤ y / 2 ^ F32.quantum y :=
        div_le_div_of_nonneg_right h (le_of_lt hp)
      exact mul_le_mul_of_nonneg_right (by exact_mod_cast roundHalfEven_mono hdiv)
        (le_of_lt hp)
    · -- the power of two at the foot of the binade of `y` separates the two
      have hqy2 : F32.quantum y = Int.log 2 y - 23 := by
        rw [hqy] at hlt ⊢
        rw [hqx] at hlt
        have : (-149 : Int) ≤ max (-149) (Int.log 2 x - 23) := le_max_left _ _
        rcases max_cases (-149 : Int) (Int.log 2 y - 23) with ⟨h1, _⟩ | ⟨h1, _⟩
        · rw [h1] at hlt
          omega
        · exact h1
      have hlogs : Int.log 2 x + 1 ≤ Int.log 2 y := by
        rw [hqx, hqy2] at hlt
        have : Int.log 2 x - 23 ≤ max (-149) (Int.log 2 x - 23) := le_max_right _ _
        omega
      obtain ⟨_, hxlt⟩ := F32.log_bounds hpos
      obtain ⟨hyle, _⟩ := F32.log_bounds hypos
      have hxB : x ≤ (2 : ℚ) ^ Int.log 2 y :=
        le_trans (le_of_lt hxlt) (zpow_le_zpow_right₀ (by norm_num) hlogs)
      -- the separating power on the grid of `y`
      have hBy : (2 : ℚ) ^ Int.log 2 y = ((2 ^ 23 : Int) : ℚ) * 2 ^ F32.quantum y := by
        have h23 : ((2 ^ 23 : Int) : ℚ) = (2 : ℚ) ^ (23 : Int) := by norm_num
        rw [hqy2, h23, ← zpow_add₀ (by norm_num : (2 : ℚ) ≠ 0)]
        congr 1
        omega
      -- and on the grid of `x`
      obtain ⟨k, hk⟩ := two_zpow_eq_intCast (Int.log 2 y - F32.quantum x) (by omega)
      have hBx : (2 : ℚ) ^ Int.log 2 y = (k : ℚ) * 2 ^ F32.quantum x := by
        rw [← hk, ← zpow_add₀ (by norm_num : (2 : ℚ) ≠ 0)]
        congr 1
        omega
      have h1 := F32.nearest_le_of_grid x k (by rw [← hBx]; exact hxB)
      have h2 := F32.le_nearest_of_grid y (2 ^ 23) (by rw [← hBy]; exact hyle)
      rw [← hBx] at h1
      rw [← hBy] at h2
      exact le_trans h1 h2

/-- The exponent of the spacing at `x`, from the binade of `x`. -/
theorem F32.quantum_eq {x : ℚ} (e : Int) (h1 : (2 : ℚ) ^ e ≤ |x|)
    (h2 : |x| < (2 : ℚ) ^ (e + 1)) : F32.quantum x = max (-149) (e - 23) := by
  have hpos : 0 < |x| := lt_of_lt_of_le (two_zpow_pos e) h1
  have hle : e ≤ Int.log 2 |x| := by
    rw [← Int.zpow_le_iff_le_log (by norm_num) hpos]
    simpa using h1
  have hlt : Int.log 2 |x| < e + 1 := by
    rw [← Int.lt_zpow_iff_log_lt (by norm_num) hpos]
    simpa using h2
  have heq : Int.log 2 |x| = e := by omega
  simp [F32.quantum, heq]

/-- The evaluation of `F32.nearest` from the binade of `x` and the rounding of
its significand. -/
theorem F32.nearest_eq {x : ℚ} (e q k : Int) (h1 : (2 : ℚ) ^ e ≤ |x|)
    (h2 : |x| < (2 : ℚ) ^ (e + 1)) (hq : max (-149) (e - 23) = q)
    (hk : roundHalfEven (x / 2 ^ q) = k) : F32.nearest x = (k : ℚ) * 2 ^ q := by
  unfold F32.nearest
  rw [F32.quantum_eq e h1 h2, hq, hk]

/-- A value on its own grid is a binary32 value: rounding leaves it as it is. -/
theorem F32.nearest_of_grid (x : ℚ) (m : Int) (h : x = (m : ℚ) * 2 ^ F32.quantum x) :
    F32.nearest x = x := by
  have hpos := two_zpow_pos (F32.quantum x)
  have hdiv : x / 2 ^ F32.quantum x = (m : ℚ) := by
    rw [div_eq_iff (ne_of_gt hpos)]
    exact h
  unfold F32.nearest
  rw [hdiv, roundHalfEven_intCast]
  exact h.symm

/-- The integers of magnitude at most `2 ^ 24` are binary32 values. -/
theorem F32.nearest_intCast (n : Int) (h : |n| ≤ 16777216) : F32.nearest (n : ℚ) = n := by
  rcases eq_or_ne n 0 with rfl | hne
  · simpa using F32.nearest_zero
  · have hpos : (0 : ℚ) < |(n : ℚ)| := abs_pos.mpr (by exact_mod_cast hne)
    have hone : (1 : ℚ) ≤ |(n : ℚ)| := by
      have : (1 : Int) ≤ |n| := Int.one_le_abs hne
      exact_mod_cast this
    have hq : F32.quantum (n : ℚ) = max (-149) (Int.log 2 |(n : ℚ)| - 23) := rfl
    have hlog0 : 0 ≤ Int.log 2 |(n : ℚ)| := by
      rw [← Int.zpow_le_iff_le_log (by norm_num) hpos]
      simpa using hone
    rcases lt_or_eq_of_le h with hlt | heq
    · have hlog : Int.log 2 |(n : ℚ)| < 24 := by
        rw [← Int.lt_zpow_iff_log_lt (by norm_num) hpos]
        have : |(n : ℚ)| < 16777216 := by exact_mod_cast hlt
        norm_num
        exact this
      have hq0 : F32.quantum (n : ℚ) ≤ 0 := by
        rw [hq]
        exact max_le (by norm_num) (by omega)
      obtain ⟨k, hk⟩ := two_zpow_eq_intCast (-F32.quantum (n : ℚ)) (by omega)
      apply F32.nearest_of_grid _ (n * k)
      push_cast
      rw [← hk, mul_assoc, ← zpow_add₀ (by norm_num : (2 : ℚ) ≠ 0)]
      simp
    · have habs : |(n : ℚ)| = 16777216 := by exact_mod_cast heq
      have hlog : Int.log 2 |(n : ℚ)| = 24 := by
        rw [habs]
        have h24 : (16777216 : ℚ) = ((2 : ℕ) : ℚ) ^ (24 : Int) := by norm_num
        rw [h24, Int.log_zpow (by norm_num)]
      have hq1 : F32.quantum (n : ℚ) = 1 := by
        rw [hq, hlog]
        rfl
      rcases abs_eq (by norm_num : (0 : Int) ≤ 16777216) |>.mp heq with hn | hn
      · apply F32.nearest_of_grid _ 8388608
        rw [hq1, hn]
        norm_num
      · apply F32.nearest_of_grid _ (-8388608)
        rw [hq1, hn]
        norm_num

/-- Every binary32 value is a multiple of the least subnormal value. -/
theorem F32.nearest_multiple (x : ℚ) :
    ∃ m : Int, F32.nearest x = (m : ℚ) * 2 ^ (-149 : Int) := by
  have hq : -149 ≤ F32.quantum x := le_max_left _ _
  obtain ⟨k, hk⟩ := two_zpow_eq_intCast (F32.quantum x + 149) (by omega)
  refine ⟨roundHalfEven (x / 2 ^ F32.quantum x) * k, ?_⟩
  unfold F32.nearest
  push_cast
  rw [← hk, mul_assoc, ← zpow_add₀ (by norm_num : (2 : ℚ) ≠ 0)]
  congr 2
  omega

/-- The least subnormal value is a binary32 value. -/
theorem F32.nearest_least : F32.nearest (2 ^ (-149 : Int)) = 2 ^ (-149 : Int) := by
  have hq : F32.quantum (2 ^ (-149 : Int)) = -149 := by
    rw [F32.quantum_eq (-149) (by rw [abs_of_pos (two_zpow_pos _)])
      (by rw [abs_of_pos (two_zpow_pos _)]; exact zpow_lt_zpow_right₀ (by norm_num) (by norm_num))]
    rfl
  apply F32.nearest_of_grid _ 1
  rw [hq]
  simp

/-- The difference of two distinct binary32 values does not round to zero. -/
theorem F32.nearest_sub_pos {a b : ℚ} (ha : F32.nearest a = a) (hb : F32.nearest b = b)
    (h : a < b) : 0 < F32.nearest (b - a) := by
  obtain ⟨ma, hma⟩ := F32.nearest_multiple a
  obtain ⟨mb, hmb⟩ := F32.nearest_multiple b
  rw [ha] at hma
  rw [hb] at hmb
  have hp := two_zpow_pos (-149)
  have hm : ma < mb := by
    by_contra hnot
    have hle : (mb : ℚ) ≤ (ma : ℚ) := by exact_mod_cast not_lt.mp hnot
    have := mul_le_mul_of_nonneg_right hle (le_of_lt hp)
    rw [← hma, ← hmb] at this
    linarith
  have hone : (1 : ℚ) ≤ (mb : ℚ) - (ma : ℚ) := by
    have : (1 : Int) ≤ mb - ma := by omega
    exact_mod_cast this
  have hdiff : (2 : ℚ) ^ (-149 : Int) ≤ b - a := by
    rw [hma, hmb, ← sub_mul]
    calc (2 : ℚ) ^ (-149 : Int) = 1 * 2 ^ (-149 : Int) := by ring
      _ ≤ ((mb : ℚ) - (ma : ℚ)) * 2 ^ (-149 : Int) :=
        mul_le_mul_of_nonneg_right hone (le_of_lt hp)
  have hmono := F32.nearest_mono (le_of_lt hp) hdiff
  rw [F32.nearest_least] at hmono
  exact lt_of_lt_of_le hp hmono

/-- A finite rounding is the nearest value, within the finite range. -/
theorem F32.round_finite {x y : ℚ} (h : F32.round x = F32.finite y) :
    F32.nearest x = y ∧ -F32.maxFinite ≤ y ∧ y ≤ F32.maxFinite := by
  unfold F32.round at h
  split_ifs at h with h1 h2
  injection h with h
  subst h
  exact ⟨rfl, not_lt.mp h2, not_lt.mp h1⟩

/-- Within the finite range the rounding is the nearest value. -/
theorem F32.round_of_bounds {x : ℚ} (h1 : -F32.maxFinite ≤ F32.nearest x)
    (h2 : F32.nearest x ≤ F32.maxFinite) : F32.round x = F32.finite (F32.nearest x) := by
  unfold F32.round
  rw [if_neg (not_lt.mpr h2), if_neg (not_lt.mpr h1)]

/-- The integers up to `2 ^ 24` are within the finite range. -/
theorem F32.maxFinite_ge : (16777216 : ℚ) ≤ F32.maxFinite := by
  norm_num [F32.maxFinite]

/-- The rounding to the nearest integer, from the integer below. -/
theorem roundHalfEven_of_floor (t : ℚ) (f : Int) (h1 : (f : ℚ) ≤ t) (h2 : t < (f : ℚ) + 1) :
    roundHalfEven t =
      if t - f < 1 / 2 then f
      else if 1 / 2 < t - f then f + 1
      else if f % 2 = 0 then f else f + 1 := by
  have hfloor : ⌊t⌋ = f := Int.floor_eq_iff.mpr ⟨h1, h2⟩
  simp only [roundHalfEven, hfloor]

/-- The difference of two finite values is their exact difference, rounded. -/
theorem F32.sub_finite (a b : ℚ) :
    F32.sub (F32.finite a) (F32.finite b) = F32.round (a - b) := by
  simp [F32.sub, F32.neg, F32.add, sub_eq_add_neg]

/-- The sum of two finite values is their exact sum, rounded. -/
theorem F32.add_finite (a b : ℚ) :
    F32.add (F32.finite a) (F32.finite b) = F32.round (a + b) := rfl

/-- A division returns unless the divisor is zero. -/
theorem F32.div_ok (a b : F32) (h : b ≠ F32.finite 0) : ∃ r, F32.div a b = .ok r := by
  cases b with
  | finite d =>
    have hd : d ≠ 0 := fun h0 => h (by rw [h0])
    cases a <;> simp [F32.div, hd]
  | posInf => cases a <;> simp [F32.div]
  | negInf => cases a <;> simp [F32.div]
  | nan => simp [F32.div]

/-- The quotient of two finite values is their exact quotient, rounded. -/
theorem F32.div_finite (n d : ℚ) (h : d ≠ 0) :
    F32.div (F32.finite n) (F32.finite d) = .ok (F32.round (n / d)) := by
  simp [F32.div, h]

/-- The integers of magnitude at most `2 ^ 24` are `F32` values. -/
theorem F32.round_intCast (n : Int) (h : |n| ≤ 16777216) :
    F32.round (n : ℚ) = F32.finite (n : ℚ) := by
  have hn := F32.nearest_intCast n h
  have habs : |(n : ℚ)| ≤ 16777216 := by exact_mod_cast h
  have hmax := F32.maxFinite_ge
  obtain ⟨h1, h2⟩ := abs_le.mp habs
  have := F32.round_of_bounds (x := (n : ℚ)) (by rw [hn]; linarith) (by rw [hn]; linarith)
  rw [this, hn]

/-- The rounding of a value between two integers of magnitude at most
`2 ^ 24` that are not negative lies between them. -/
theorem F32.round_between (x : ℚ) (a b : Int) (ha : 0 ≤ a) (hb : b ≤ 16777216)
    (hax : (a : ℚ) ≤ x) (hxb : x ≤ (b : ℚ)) :
    F32.round x = F32.finite (F32.nearest x) ∧ (a : ℚ) ≤ F32.nearest x ∧
      F32.nearest x ≤ (b : ℚ) := by
  have ha0 : (0 : ℚ) ≤ (a : ℚ) := by exact_mod_cast ha
  have hab : (a : ℚ) ≤ (b : ℚ) := le_trans hax hxb
  have hab2 : a ≤ b := by exact_mod_cast hab
  have hlow := F32.nearest_mono ha0 hax
  have hhigh := F32.nearest_mono (le_trans ha0 hax) hxb
  rw [F32.nearest_intCast a (by rw [abs_of_nonneg ha]; omega)] at hlow
  rw [F32.nearest_intCast b (by rw [abs_of_nonneg (by omega)]; omega)] at hhigh
  have hb2 : (b : ℚ) ≤ 16777216 := by exact_mod_cast hb
  have hmax := F32.maxFinite_ge
  exact ⟨F32.round_of_bounds (by linarith) (by linarith), hlow, hhigh⟩

/-- The evaluation of `F32.round` from the binade of `x` and the rounding of
its significand. -/
theorem F32.round_eq {x : ℚ} (e q k : Int) (y : ℚ) (h1 : (2 : ℚ) ^ e ≤ |x|)
    (h2 : |x| < (2 : ℚ) ^ (e + 1)) (hq : max (-149) (e - 23) = q)
    (hk : roundHalfEven (x / 2 ^ q) = k) (hy : (k : ℚ) * 2 ^ q = y)
    (hlow : -F32.maxFinite ≤ y) (hhigh : y ≤ F32.maxFinite) :
    F32.round x = F32.finite y := by
  have hn : F32.nearest x = y := by rw [F32.nearest_eq e q k h1 h2 hq hk, hy]
  have := F32.round_of_bounds (x := x) (by rw [hn]; exact hlow) (by rw [hn]; exact hhigh)
  rw [this, hn]

/-- The evaluation of an `F32.round` that overflows, from the binade of `x`
and the rounding of its significand. -/
theorem F32.round_overflow {x : ℚ} (e q k : Int) (h1 : (2 : ℚ) ^ e ≤ |x|)
    (h2 : |x| < (2 : ℚ) ^ (e + 1)) (hq : max (-149) (e - 23) = q)
    (hk : roundHalfEven (x / 2 ^ q) = k) (hbig : F32.maxFinite < (k : ℚ) * 2 ^ q) :
    F32.round x = F32.posInf := by
  unfold F32.round
  rw [F32.nearest_eq e q k h1 h2 hq hk, if_pos hbig]

/-! ### Morph index -/

theorem morphIndexLoop_spec (cp : mqControlParam) :
    ∀ (modifiers : List mqModifier) (i : Nat) (index : Int),
      ∃ r, morphIndexLoop (some cp) modifiers i index = .ok r ∧
        ((r = index ∧ ∀ m ∈ modifiers, cp.value < m.controlValue) ∨
          ∃ j m, modifiers[j]? = some m ∧ r = ((i + j : Nat) : Int) ∧
            m.controlValue ≤ cp.value ∧
            ∀ k m2, modifiers[k]? = some m2 → j < k → cp.value < m2.controlValue) := by
  intro modifiers
  induction modifiers with
  | nil =>
    intro i index
    exact ⟨index, rfl, Or.inl ⟨rfl, by simp⟩⟩
  | cons m rest ih =>
    intro i index
    obtain ⟨r, hr, hcases⟩ :=
      ih (i + 1) (if cp.value ≥ m.controlValue then (i : Int) else index)
    refine ⟨r, by simpa [morphIndexLoop] using hr, ?_⟩
    rcases hcases with ⟨hidx, hall⟩ | ⟨j, m1, hj, hrj, hle, hmax⟩
    · by_cases hm : cp.value ≥ m.controlValue
      · right
        refine ⟨0, m, by simp, by simp [hidx, hm], hm, ?_⟩
        intro k m2 hk hpos
        obtain ⟨k1, rfl⟩ : ∃ k1, k = k1 + 1 := ⟨k - 1, by omega⟩
        simp only [List.getElem?_cons_succ] at hk
        exact hall m2 (List.getElem?_mem hk)
      · left
        refine ⟨by simp [hidx, hm], ?_⟩
        intro m2 hm2
        rcases List.mem_cons.mp hm2 with rfl | hin
        · exact not_le.mp hm
        · exact hall m2 hin
    · right
      refine ⟨j + 1, m1, by simpa using hj, by rw [hrj]; push_cast; ring, hle, ?_⟩
      intro k m2 hk hpos
      obtain ⟨k1, rfl⟩ : ∃ k1, k = k1 + 1 := ⟨k - 1, by omega⟩
      simp only [List.getElem?_cons_succ] at hk
      exact hmax k1 m2 hk (by omega)
/-- Claim C2: when no modifier has a control value at most the control value,
because the modifier list is empty or because the control value is below
every threshold, `getMorphTableListIndex` returns morph index `0`. -/
theorem getMorphTableListIndex_no_qualifier (s : Core) (mapping : mqMapping)
    (h : mapping.modifiers = [] ∨
      ∃ cp, s.deref mapping.controlParam = some cp ∧
        ∀ m ∈ mapping.modifiers, ¬ m.controlValue ≤ cp.value) :
    s.getMorphTableListIndex mapping = .ok 0 := by
  rcases h with hnil | ⟨cp, hcp, hall⟩
  · simp [Core.getMorphTableListIndex, hnil, morphIndexLoop]
  · obtain ⟨r, hr, hcases⟩ := morphIndexLoop_spec cp mapping.modifiers 0 INDEX_INVALID
    rcases hcases with ⟨hidx, _⟩ | ⟨j, m, hj, _, hmle, _⟩
    · simp [Core.getMorphTableListIndex, hcp, hr, hidx]
    · exact absurd hmle (hall m (List.getElem?_mem hj))

/-- Witness of C2: control values `[0, 10, 20]` with `v = -5` give `0`. -/
theorem getMorphTableListIndex_no_qualifier_witness :
    (sampleCore (-5)).getMorphTableListIndex
      (sampleMapping .SEGMENT (some "intensity") [0, 10, 20]) = .ok 0 :=
  getMorphTableListIndex_no_qualifier (sampleCore (-5))
    (sampleMapping .SEGMENT (some "intensity") [0, 10, 20])
    (Or.inr ⟨{ name := "intensity", min := -10, max := 30, value := -5 }, rfl, by
      intro m hm
      simp [sampleMapping, sampleModifier] at hm
      rcases hm with rfl | rfl | rfl <;> norm_num⟩)
/-- In exact arithmetic, for every modifier list, sorted or not, and every
control value that can be read, `getMorphTableListIndex` returns a value, and
whenever the interpolation step is taken the divisor is not zero, the fraction
added to `index` lies in `[0, 1)` and the result lies in `[index, index + 1)`. -/
theorem getMorphTableListIndex_exact_interval (s : Core) (mapping : mqMapping)
    (cp : mqControlParam) (hcp : s.deref mapping.controlParam = some cp) :
    ∃ result, s.getMorphTableListIndex mapping = .ok result ∧
      ∀ index : Int,
        morphIndexLoop (some cp) mapping.modifiers 0 INDEX_INVALID = .ok index →
        index ≠ INDEX_INVALID →
        index < (mapping.modifiers.length : Int) - 1 →
        ∃ lower upper,
          mapping.modifiers[index.toNat]? = some lower ∧
          mapping.modifiers[index.toNat + 1]? = some upper ∧
          upper.controlValue - lower.controlValue ≠ 0 ∧
          0 ≤ (cp.value - lower.controlValue) /
            (upper.controlValue - lower.controlValue) ∧
          (cp.value - lower.controlValue) /
            (upper.controlValue - lower.controlValue) < 1 ∧
          result = (index : ℚ) + (cp.value - lower.controlValue) /
            (upper.controlValue - lower.controlValue) ∧
          (index : ℚ) ≤ result ∧ result < (index : ℚ) + 1 := by
  obtain ⟨r, hr, hcases⟩ := morphIndexLoop_spec cp mapping.modifiers 0 INDEX_INVALID
  rcases hcases with ⟨hidx, _⟩ | ⟨j, lower, hj, hrj, hle, hmax⟩
  · refine ⟨0, by simp [Core.getMorphTableListIndex, hcp, hr, hidx], ?_⟩
    intro index hloop hvalid
    rw [hr] at hloop
    injection hloop with hindex
    exact absurd (hindex.symm.trans hidx) hvalid
  · have hrj2 : r = (j : Int) := by simpa using hrj
    have hinv : ¬ ((j : Int) = INDEX_INVALID) := by
      simp only [INDEX_INVALID]; omega
    cases hupper : mapping.modifiers[j + 1]? with
    | none =>
      have hlen : mapping.modifiers.length ≤ j + 1 := List.getElem?_eq_none_iff.mp hupper
      have hnot : ¬ ((j : Int) < (mapping.modifiers.length : Int) - 1) := by omega
      refine ⟨(j : ℚ), by
        simp [Core.getMorphTableListIndex, hcp, hr, hrj2, hinv, hnot], ?_⟩
      intro index hloop _ hstep
      rw [hr] at hloop
      injection hloop with hindex
      rw [← hindex, hrj2] at hstep
      exact absurd hstep hnot
    | some upper =>
      have hlt : (j : Int) < (mapping.modifiers.length : Int) - 1 := by
        obtain ⟨h, _⟩ := List.getElem?_eq_some.mp hupper
        omega
      have hup : cp.value < upper.controlValue := hmax (j + 1) upper hupper (Nat.lt_succ_self j)
      have hpos : 0 < upper.controlValue - lower.controlValue := by linarith
      have hdelta : ¬ (upper.controlValue - lower.controlValue = 0) := ne_of_gt hpos
      have hfrac0 : 0 ≤ (cp.value - lower.controlValue) /
          (upper.controlValue - lower.controlValue) :=
        div_nonneg (by linarith) (le_of_lt hpos)
      have hfrac1 : (cp.value - lower.controlValue) /
          (upper.controlValue - lower.controlValue) < 1 := by
        rw [div_lt_one hpos]
        linarith
      refine ⟨(j : ℚ) + (cp.value - lower.controlValue) /
          (upper.controlValue - lower.controlValue), by
        simp [Core.getMorphTableListIndex, hcp, hr, hrj2, hinv, hlt, hj, hupper, hdelta], ?_⟩
      intro index hloop _ _
      rw [hr] at hloop
      injection hloop with hindex
      have hindex2 : index = (j : Int) := hindex.symm.trans hrj2
      subst hindex2
      refine ⟨lower, upper, by simpa using hj, by simpa using hupper, hdelta, hfrac0, hfrac1,
        by simp, ?_, ?_⟩
      · simp only [Int.cast_natCast]
        linarith
      · simp only [Int.cast_natCast]
        linarith
/-- The interpolation step of `getMorphTableListIndexF32`, when the loop ends
at a position that is not the last. -/
theorem getMorphTableListIndexF32_step (s : Core) (mapping : mqMapping) (cp : mqControlParam)
    (index : Nat) (lower upper : mqModifier) (fraction : F32)
    (hcp : s.deref mapping.controlParam = some cp)
    (hloop : morphIndexLoop (some cp) mapping.modifiers 0 INDEX_INVALID = .ok (index : Int))
    (hlower : mapping.modifiers[index]? = some lower)
    (hupper : mapping.modifiers[index + 1]? = some upper)
    (hdiv : F32.div (F32.sub (F32.finite cp.value) (F32.finite lower.controlValue))
      (F32.sub (F32.finite upper.controlValue) (F32.finite lower.controlValue)) =
        .ok fraction) :
    s.getMorphTableListIndexF32 mapping =
      .ok (F32.add (F32.finite (F32.ofS32 index)) fraction) := by
  have hinv : ¬ ((index : Int) = INDEX_INVALID) := by
    simp only [INDEX_INVALID]; omega
  have hlen : index + 1 < mapping.modifiers.length := by
    obtain ⟨h, _⟩ := List.getElem?_eq_some.mp hupper
    exact h
  have hlt : (index : Int) < (mapping.modifiers.length : Int) - 1 := by omega
  simp [Core.getMorphTableListIndexF32, hcp, hloop, hinv, hlt, hlower, hupper, hdiv]

/-- The control value `1 - 2 ^ (-24)` is an `F32` value. -/
theorem round_below_one :
    F32.round (16777215 / 16777216) = F32.finite (16777215 / 16777216) := by
  apply F32.round_eq (-1) (-24) 16777215
  · norm_num [abs_of_pos]
  · norm_num [abs_of_pos]
  · decide
  · rw [roundHalfEven_of_floor _ 16777215 (by norm_num) (by norm_num)]
    norm_num
  · norm_num
  · norm_num [F32.maxFinite]
  · norm_num [F32.maxFinite]

/-- The sum `1 + (1 - 2 ^ (-24))` lies half way between two `F32` values and
is rounded to the even one, `2`. -/
theorem round_below_two : F32.round (33554431 / 16777216) = F32.finite 2 := by
  apply F32.round_eq 0 (-23) 16777216
  · norm_num [abs_of_pos]
  · norm_num [abs_of_pos]
  · decide
  · rw [roundHalfEven_of_floor _ 16777215 (by norm_num) (by norm_num)]
    norm_num
  · norm_num
  · norm_num [F32.maxFinite]
  · norm_num [F32.maxFinite]

/-- The difference `33554430 - (-1)` is rounded to `2 ^ 25`. -/
theorem round_numerator : F32.round 33554431 = F32.finite 33554432 := by
  apply F32.round_eq 24 1 16777216
  · norm_num [abs_of_pos]
  · norm_num [abs_of_pos]
  · decide
  · rw [roundHalfEven_of_floor _ 16777215 (by norm_num) (by norm_num)]
    norm_num
  · norm_num
  · norm_num [F32.maxFinite]
  · norm_num [F32.maxFinite]

/-- The difference `2 ^ 25 - (-1)` is rounded to `2 ^ 25`. -/
theorem round_divisor : F32.round 33554433 = F32.finite 33554432 := by
  apply F32.round_eq 25 2 8388608
  · norm_num [abs_of_pos]
  · norm_num [abs_of_pos]
  · decide
  · rw [roundHalfEven_of_floor _ 8388608 (by norm_num) (by norm_num)]
    norm_num
  · norm_num
  · norm_num [F32.maxFinite]
  · norm_num [F32.maxFinite]

/-- The greatest finite value is an `F32` value. -/
theorem round_max : F32.round F32.maxFinite = F32.finite F32.maxFinite := by
  apply F32.round_eq 127 104 16777215
  · norm_num [F32.maxFinite, abs_of_pos]
  · norm_num [F32.maxFinite, abs_of_pos]
  · decide
  · rw [roundHalfEven_of_floor _ 16777215 (by norm_num [F32.maxFinite])
      (by norm_num [F32.maxFinite])]
    norm_num [F32.maxFinite]
  · norm_num [F32.maxFinite]
  · norm_num [F32.maxFinite]
  · norm_num [F32.maxFinite]

/-- The difference `FLT_MAX / 2 - (-FLT_MAX)` overflows. -/
theorem sub_overflow_numerator :
    F32.sub (F32.finite (F32.maxFinite / 2)) (F32.finite (-F32.maxFinite)) = F32.posInf := by
  rw [F32.sub_finite]
  apply F32.round_overflow 128 105 12582911
  · norm_num [F32.maxFinite, abs_of_pos]
  · norm_num [F32.maxFinite, abs_of_pos]
  · decide
  · rw [roundHalfEven_of_floor _ 12582911 (by norm_num [F32.maxFinite])
      (by norm_num [F32.maxFinite])]
    norm_num [F32.maxFinite]
  · norm_num [F32.maxFinite]

/-- The difference `FLT_MAX - (-FLT_MAX)` overflows. -/
theorem sub_overflow_divisor :
    F32.sub (F32.finite F32.maxFinite) (F32.finite (-F32.maxFinite)) = F32.posInf := by
  rw [F32.sub_finite]
  apply F32.round_overflow 128 105 16777215
  · norm_num [F32.maxFinite, abs_of_pos]
  · norm_num [F32.maxFinite, abs_of_pos]
  · decide
  · rw [roundHalfEven_of_floor _ 16777215 (by norm_num [F32.maxFinite])
      (by norm_num [F32.maxFinite])]
    norm_num [F32.maxFinite]
  · norm_num [F32.maxFinite]

/-- Counterexample to C3 as stated, in binary32 arithmetic.  With modifiers
at `-1`, `0`, `1` and the control value `1 - 2 ^ (-24)`, an `F32` value, the
loop ends at index 1 and the result is `2`, that is `index + 1`: the sum
`1 + (1 - 2 ^ (-24))` is rounded up.  With modifiers at `-1` and `2 ^ 25` and
the control value `33554430` the loop ends at index 0, both differences are
rounded to `2 ^ 25`, the fraction is `1` and the result is `1`.  With
modifiers at `-FLT_MAX` and `FLT_MAX`, both `F32` values, and the control
value `FLT_MAX / 2` the loop ends at index 0, both differences overflow and
the result is NaN. -/
theorem getMorphTableListIndexF32_reaches_next_index :
    (F32.round (16777215 / 16777216) = F32.finite (16777215 / 16777216) ∧
      morphIndexLoop
        (some { name := "intensity", min := -10, max := 30, value := 16777215 / 16777216 })
        (sampleMapping .SEGMENT (some "intensity") [-1, 0, 1]).modifiers 0 INDEX_INVALID =
        .ok 1 ∧
      (sampleCore (16777215 / 16777216)).getMorphTableListIndexF32
        (sampleMapping .SEGMENT (some "intensity") [-1, 0, 1]) = .ok (F32.finite 2) ∧
      ¬ ((2 : ℚ) < 1 + 1)) ∧
    (morphIndexLoop (some { name := "intensity", min := -10, max := 30, value := 33554430 })
        (sampleMapping .SEGMENT (some "intensity") [-1, 33554432]).modifiers 0 INDEX_INVALID =
        .ok 0 ∧
      F32.sub (F32.finite 33554430) (F32.finite (-1)) = F32.finite 33554432 ∧
      F32.sub (F32.finite 33554432) (F32.finite (-1)) = F32.finite 33554432 ∧
      F32.div (F32.finite 33554432) (F32.finite 33554432) = .ok (F32.finite 1) ∧
      (sampleCore 33554430).getMorphTableListIndexF32
        (sampleMapping .SEGMENT (some "intensity") [-1, 33554432]) = .ok (F32.finite 1) ∧
      ¬ ((1 : ℚ) < 1)) ∧
    (F32.round F32.maxFinite = F32.finite F32.maxFinite ∧
      morphIndexLoop
        (some { name := "intensity", min := -10, max := 30, value := F32.maxFinite / 2 })
        (sampleMapping .SEGMENT (some "intensity")
          [-F32.maxFinite, F32.maxFinite]).modifiers 0 INDEX_INVALID = .ok 0 ∧
      F32.sub (F32.finite (F32.maxFinite / 2)) (F32.finite (-F32.maxFinite)) = F32.posInf ∧
      F32.sub (F32.finite F32.maxFinite) (F32.finite (-F32.maxFinite)) = F32.posInf ∧
      (sampleCore (F32.maxFinite / 2)).getMorphTableListIndexF32
        (sampleMapping .SEGMENT (some "intensity") [-F32.maxFinite, F32.maxFinite]) =
        .ok F32.nan) := by
  have hloop : morphIndexLoop
      (some { name := "intensity", min := -10, max := 30, value := F32.maxFinite / 2 })
      (sampleMapping .SEGMENT (some "intensity")
        [-F32.maxFinite, F32.maxFinite]).modifiers 0 INDEX_INVALID = .ok 0 := by
    norm_num [morphIndexLoop, sampleMapping, sampleModifier, INDEX_INVALID, F32.maxFinite]
  have hnan : (sampleCore (F32.maxFinite / 2)).getMorphTableListIndexF32
      (sampleMapping .SEGMENT (some "intensity") [-F32.maxFinite, F32.maxFinite]) =
      .ok F32.nan := by
    have hstep := getMorphTableListIndexF32_step (sampleCore (F32.maxFinite / 2))
      (sampleMapping .SEGMENT (some "intensity") [-F32.maxFinite, F32.maxFinite])
      { name := "intensity", min := -10, max := 30, value := F32.maxFinite / 2 } 0
      (sampleModifier (-F32.maxFinite)) (sampleModifier F32.maxFinite) F32.nan rfl
      hloop rfl rfl
      (by
        simp only [sampleModifier]
        rw [sub_overflow_numerator, sub_overflow_divisor]
        rfl)
    rw [hstep]
    rfl
  have h1 : F32.round 1 = F32.finite 1 := by simpa using F32.round_intCast 1 (by norm_num)
  have hsub1 : F32.sub (F32.finite 33554430) (F32.finite (-1)) = F32.finite 33554432 := by
    rw [F32.sub_finite]
    norm_num
    exact round_numerator
  have hsub2 : F32.sub (F32.finite 33554432) (F32.finite (-1)) = F32.finite 33554432 := by
    rw [F32.sub_finite]
    norm_num
    exact round_divisor
  have hdiv : F32.div (F32.finite 33554432) (F32.finite 33554432) = .ok (F32.finite 1) := by
    rw [F32.div_finite _ _ (by norm_num), div_self (by norm_num), h1]
  refine ⟨⟨round_below_one, ?_, ?_, by norm_num⟩, ⟨?_, hsub1, hsub2, hdiv, ?_, by norm_num⟩,
    round_max, hloop, sub_overflow_numerator, sub_overflow_divisor, hnan⟩
  · norm_num [morphIndexLoop, sampleMapping, sampleModifier, INDEX_INVALID]
  · have hstep := getMorphTableListIndexF32_step (sampleCore (16777215 / 16777216))
      (sampleMapping .SEGMENT (some "intensity") [-1, 0, 1])
      { name := "intensity", min := -10, max := 30, value := 16777215 / 16777216 } 1
      (sampleModifier 0) (sampleModifier 1) (F32.finite (16777215 / 16777216)) rfl
      (by norm_num [morphIndexLoop, sampleMapping, sampleModifier, INDEX_INVALID]) rfl rfl
      (by
        simp only [sampleModifier, F32.sub_finite, sub_zero, round_below_one, h1]
        rw [F32.div_finite _ _ one_ne_zero, div_one, round_below_one])
    rw [hstep, F32.add_finite, F32.ofS32, F32.nearest_intCast _ (by norm_num)]
    norm_num
    exact round_below_two
  · norm_num [morphIndexLoop, sampleMapping, sampleModifier, INDEX_INVALID]
  · have hstep := getMorphTableListIndexF32_step (sampleCore 33554430)
      (sampleMapping .SEGMENT (some "intensity") [-1, 33554432])
      { name := "intensity", min := -10, max := 30, value := 33554430 } 0
      (sampleModifier (-1)) (sampleModifier 33554432) (F32.finite 1) rfl
      (by norm_num [morphIndexLoop, sampleMapping, sampleModifier, INDEX_INVALID]) rfl rfl
      (by
        simp only [sampleModifier]
        rw [hsub1, hsub2, hdiv])
    rw [hstep, F32.add_finite, F32.ofS32, F32.nearest_intCast _ (by norm_num)]
    norm_num
    exact h1

/-- Claim C3 as amended: in binary32 arithmetic, for every list of at most
`2 ^ 24` modifiers whose control values are `F32` values, sorted or not, equal
neighbours included, and every control value that can be read,
`getMorphTableListIndexF32` returns a value, and whenever the interpolation
step is taken the divisor `delta` is not zero; when `delta` is finite (the
difference of the two control values does not overflow) it is positive, the
fraction added to `index` lies in `[0, 1]` and the result lies in
`[index, index + 1]`. -/
theorem getMorphTableListIndexF32_no_zero_interval (s : Core) (mapping : mqMapping)
    (cp : mqControlParam) (hcp : s.deref mapping.controlParam = some cp)
    (hmodifiers : ∀ m ∈ mapping.modifiers,
      F32.round m.controlValue = F32.finite m.controlValue)
    (hlength : mapping.modifiers.length ≤ 16777216) :
    ∃ result, s.getMorphTableListIndexF32 mapping = .ok result ∧
      ∀ index : Int,
        morphIndexLoop (some cp) mapping.modifiers 0 INDEX_INVALID = .ok index →
        index ≠ INDEX_INVALID →
        index < (mapping.modifiers.length : Int) - 1 →
        ∃ lower upper,
          mapping.modifiers[index.toNat]? = some lower ∧
          mapping.modifiers[index.toNat + 1]? = some upper ∧
          F32.sub (F32.finite upper.controlValue) (F32.finite lower.controlValue) ≠
            F32.finite 0 ∧
          ∀ delta,
            F32.sub (F32.finite upper.controlValue) (F32.finite lower.controlValue) =
              F32.finite delta →
            ∃ relValue fraction value,
              F32.sub (F32.finite cp.value) (F32.finite lower.controlValue) =
                F32.finite relValue ∧
              F32.div (F32.finite relValue) (F32.finite delta) = .ok (F32.finite fraction) ∧
              result = F32.finite value ∧
              0 < delta ∧ 0 ≤ fraction ∧ fraction ≤ 1 ∧
              (index : ℚ) ≤ value ∧ value ≤ (index : ℚ) + 1 := by
  obtain ⟨r, hr, hcases⟩ := morphIndexLoop_spec cp mapping.modifiers 0 INDEX_INVALID
  rcases hcases with ⟨hidx, _⟩ | ⟨j, lower, hj, hrj, hle, hmax⟩
  · refine ⟨F32.finite 0, by simp [Core.getMorphTableListIndexF32, hcp, hr, hidx], ?_⟩
    intro index hloop hvalid
    rw [hr] at hloop
    injection hloop with hindex
    exact absurd (hindex.symm.trans hidx) hvalid
  · have hrj2 : r = (j : Int) := by simpa using hrj
    have hinv : ¬ ((j : Int) = INDEX_INVALID) := by
      simp only [INDEX_INVALID]; omega
    cases hupper : mapping.modifiers[j + 1]? with
    | none =>
      have hlen : mapping.modifiers.length ≤ j + 1 := List.getElem?_eq_none_iff.mp hupper
      have hnot : ¬ ((j : Int) < (mapping.modifiers.length : Int) - 1) := by omega
      refine ⟨F32.finite (F32.ofS32 j), by
        simp [Core.getMorphTableListIndexF32, hcp, hr, hrj2, hinv, hnot], ?_⟩
      intro index hloop _ hstep
      rw [hr] at hloop
      injection hloop with hindex
      rw [← hindex, hrj2] at hstep
      exact absurd hstep hnot
    | some upper =>
      have hjlen : j + 1 < mapping.modifiers.length := by
        obtain ⟨h, _⟩ := List.getElem?_eq_some.mp hupper
        exact h
      have hlt : (j : Int) < (mapping.modifiers.length : Int) - 1 := by omega
      have hup : cp.value < upper.controlValue := hmax (j + 1) upper hupper (Nat.lt_succ_self j)
      have hlo := (F32.round_finite (hmodifiers lower (List.getElem?_mem hj))).1
      have hhi := (F32.round_finite (hmodifiers upper (List.getElem?_mem hupper))).1
      have hdpos : 0 < F32.nearest (upper.controlValue - lower.controlValue) :=
        F32.nearest_sub_pos hlo hhi (lt_of_le_of_lt hle hup)
      have hne : F32.sub (F32.finite upper.controlValue) (F32.finite lower.controlValue) ≠
          F32.finite 0 := by
        rw [F32.sub_finite]
        intro h0
        have := (F32.round_finite h0).1
        linarith
      obtain ⟨fraction, hfraction⟩ := F32.div_ok
        (F32.sub (F32.finite cp.value) (F32.finite lower.controlValue))
        (F32.sub (F32.finite upper.controlValue) (F32.finite lower.controlValue)) hne
      refine ⟨F32.add (F32.finite (F32.ofS32 j)) fraction, by
        simp [Core.getMorphTableListIndexF32, hcp, hr, hrj2, hinv, hlt, hj, hupper,
          hfraction], ?_⟩
      intro index hloop _ _
      rw [hr] at hloop
      injection hloop with hindex
      have hindex2 : index = (j : Int) := hindex.symm.trans hrj2
      subst hindex2
      refine ⟨lower, upper, by simpa using hj, by simpa using hupper, hne, ?_⟩
      intro delta hdelta
      rw [F32.sub_finite] at hdelta
      obtain ⟨hdn, _, hdmax⟩ := F32.round_finite hdelta
      have hdelta0 : 0 < delta := by rw [← hdn]; exact hdpos
      -- the numerator
      have hrel0 : 0 ≤ F32.nearest (cp.value - lower.controlValue) :=
        F32.nearest_nonneg (by linarith)
      have hrel1 : F32.nearest (cp.value - lower.controlValue) ≤ delta := by
        rw [← hdn]
        exact F32.nearest_mono (by linarith) (by linarith)
      have hmaxpos : 0 ≤ F32.maxFinite := le_trans (by norm_num) F32.maxFinite_ge
      have hrel : F32.sub (F32.finite cp.value) (F32.finite lower.controlValue) =
          F32.finite (F32.nearest (cp.value - lower.controlValue)) := by
        rw [F32.sub_finite]
        exact F32.round_of_bounds (by linarith) (by linarith)
      -- the fraction
      have hq0 : 0 ≤ F32.nearest (cp.value - lower.controlValue) / delta :=
        div_nonneg hrel0 (le_of_lt hdelta0)
      have hq1 : F32.nearest (cp.value - lower.controlValue) / delta ≤ 1 := by
        rw [div_le_one hdelta0]
        exact hrel1
      obtain ⟨hfr, hfr0, hfr1⟩ := F32.round_between _ 0 1 le_rfl (by norm_num)
        (by simpa using hq0) (by simpa using hq1)
      have hdiv : F32.div (F32.finite (F32.nearest (cp.value - lower.controlValue)))
          (F32.finite delta) =
          .ok (F32.finite (F32.nearest
            (F32.nearest (cp.value - lower.controlValue) / delta))) := by
        rw [F32.div_finite _ _ (ne_of_gt hdelta0), hfr]
      have hfraction2 : fraction = F32.finite (F32.nearest
          (F32.nearest (cp.value - lower.controlValue) / delta)) := by
        rw [hrel, F32.sub_finite, hdelta, hdiv] at hfraction
        injection hfraction with h
        exact h.symm
      -- the sum
      have hj24 : |(j : Int)| ≤ 16777216 := by
        rw [abs_of_nonneg (by omega)]
        omega
      have hofs : F32.ofS32 (j : Int) = ((j : Int) : ℚ) := F32.nearest_intCast _ hj24
      simp only [Int.cast_zero, Int.cast_one] at hfr0 hfr1
      obtain ⟨hsum, hsum0, hsum1⟩ := F32.round_between
        (((j : Int) : ℚ) + F32.nearest (F32.nearest (cp.value - lower.controlValue) / delta))
        (j : Int) ((j : Int) + 1) (by omega) (by omega) (by linarith)
        (by push_cast; linarith)
      refine ⟨_, _, _, hrel, hdiv, ?_, hdelta0, hfr0, hfr1, hsum0, ?_⟩
      · rw [hfraction2, F32.add_finite, hofs, hsum]
      · push_cast at hsum1
        exact hsum1

/-- Witness of the amended C3: modifiers with equal adjacent control values,
`[0, 0, 10, 10]`, and control value `5`. -/
theorem getMorphTableListIndexF32_no_zero_interval_witness :
    ∃ result,
      (sampleCore 5).getMorphTableListIndexF32
        (sampleMapping .RANGE (some "intensity") [0, 0, 10, 10]) = .ok result ∧
      ∀ index : Int,
        morphIndexLoop (some { name := "intensity", min := -10, max := 30, value := 5 })
          (sampleMapping .RANGE (some "intensity") [0, 0, 10, 10]).modifiers 0
          INDEX_INVALID = .ok index →
        index ≠ INDEX_INVALID →
        index < ((sampleMapping .RANGE (some "intensity")
          [0, 0, 10, 10]).modifiers.length : Int) - 1 →
        ∃ lower upper,
          (sampleMapping .RANGE (some "intensity")
            [0, 0, 10, 10]).modifiers[index.toNat]? = some lower ∧
          (sampleMapping .RANGE (some "intensity")
            [0, 0, 10, 10]).modifiers[index.toNat + 1]? = some upper ∧
          F32.sub (F32.finite upper.controlValue) (F32.finite lower.controlValue) ≠
            F32.finite 0 ∧
          ∀ delta,
            F32.sub (F32.finite upper.controlValue) (F32.finite lower.controlValue) =
              F32.finite delta →
            ∃ relValue fraction value,
              F32.sub (F32.finite 5) (F32.finite lower.controlValue) =
                F32.finite relValue ∧
              F32.div (F32.finite relValue) (F32.finite delta) = .ok (F32.finite fraction) ∧
              result = F32.finite value ∧
              0 < delta ∧ 0 ≤ fraction ∧ fraction ≤ 1 ∧
              (index : ℚ) ≤ value ∧ value ≤ (index : ℚ) + 1 :=
  getMorphTableListIndexF32_no_zero_interval (sampleCore 5)
    (sampleMapping .RANGE (some "intensity") [0, 0, 10, 10])
    { name := "intensity", min := -10, max := 30, value := 5 } rfl
    (by
      have h0 : F32.round 0 = F32.finite 0 := by
        simpa using F32.round_intCast 0 (by norm_num)
      have h10 : F32.round 10 = F32.finite 10 := by
        simpa using F32.round_intCast 10 (by norm_num)
      intro m hm
      simp [sampleMapping, sampleModifier] at hm
      rcases hm with rfl | rfl
      · exact h0
      · exact h10)
    (by decide)

/-- Claim C4, evaluated on the code: a control parameter with bounds
`[-10, 30]` updated with `50` stores `50`, the raw input, and not `30`, the
input clamped into the bounds. -/
theorem updateControlParam_stores_raw_value :
    (mapGet "intensity"
        ((sampleCore 5).updateControlParam
          { name := "intensity", value := 50 })._config.controlParams).map
      (fun controlParam => controlParam.value) = some 50 ∧
      clamp 50 (-10) 30 = 30 ∧ (50 : ℚ) ≠ clamp 50 (-10) 30 := by
  refine ⟨rfl, ?_, ?_⟩ <;> norm_num [clamp]

/-- An update whose name is not a key of the map is not found by `mapGet`. -/
theorem mapGet_eq_none {α : Type} (name : String) (entries : List (String × α))
    (h : name ∉ entries.map Prod.fst) : mapGet name entries = none := by
  induction entries with
  | nil => rfl
  | cons entry rest ih =>
    obtain ⟨key, value⟩ := entry
    simp only [List.map_cons, List.mem_cons, not_or] at h
    have hkey : ¬ (key = name) := fun heq => h.1 heq.symm
    simp [mapGet, hkey, ih h.2]

/-- Claim C5: updates whose names are not keys of the control parameters of
the configuration leave the whole core state, hence every control parameter,
unchanged, for `updateControlParams` over the list of updates and for
`updateControlParam` on each of them. -/
theorem updateControlParam_unknown_name (s : Core) (updates : List mqParamUpdate)
    (h : ∀ update ∈ updates, update.name ∉ s._config.controlParams.map Prod.fst) :
    s.updateControlParams updates = s ∧
      ∀ update ∈ updates, s.updateControlParam update = s := by
  have hone : ∀ update ∈ updates, s.updateControlParam update = s := by
    intro update hmem
    simp [Core.updateControlParam, mapGet_eq_none update.name _ (h update hmem)]
  refine ⟨?_, hone⟩
  induction updates with
  | nil => rfl
  | cons update rest ih =>
    have hfirst : s.updateControlParam update = s := hone update (List.mem_cons_self _ _)
    simp only [Core.updateControlParams, hfirst]
    exact ih (fun u hu => h u (List.mem_cons_of_mem _ hu))
      (fun u hu => hone u (List.mem_cons_of_mem _ hu))

/-- Witness of C5: two updates of parameters the sample configuration does not
have. -/
theorem updateControlParam_unknown_name_witness :
    (sampleCore 5).updateControlParams
        [{ name := "speed", value := 3 }, { name := "health", value := 40 }] =
        sampleCore 5 ∧
      ∀ update ∈ ([{ name := "speed", value := 3 }, { name := "health", value := 40 }] :
          List mqParamUpdate),
        (sampleCore 5).updateControlParam update = sampleCore 5 :=
  updateControlParam_unknown_name (sampleCore 5)
    [{ name := "speed", value := 3 }, { name := "health", value := 40 }]
    (by
      intro update hmem
      simp only [List.mem_cons, List.mem_singleton, List.not_mem_nil, or_false] at hmem
      rcases hmem with rfl | rfl <;> simp [sampleCore])
/-- Below `UINT_MAX` a call of `getNewTableNumber` returns the counter plus one
and stores it. -/
theorem getNewTableNumber_eq (s : Core) (h : s._nextTableNumber + 1 < UINT_MAX) :
    s.getNewTableNumber =
      (s._nextTableNumber + 1, { s with _nextTableNumber := s._nextTableNumber + 1 }) := by
  have hmod : (s._nextTableNumber + 1) % 4294967296 = s._nextTableNumber + 1 := by
    simp only [UINT_MAX] at h
    omega
  have hne : ¬ (s._nextTableNumber + 1 = UINT_MAX) := by omega
  simp [Core.getNewTableNumber, hmod, hne]

/-- The numbers of consecutive calls of `getNewTableNumber` that stay below
`UINT_MAX` are the consecutive numbers after the counter. -/
theorem tableNumbers_eq_range (n : Nat) :
    ∀ s : Core, s._nextTableNumber + n < UINT_MAX →
      (s.tableNumbers n).1 = List.range' (s._nextTableNumber + 1) n := by
  induction n with
  | zero => intro s _; rfl
  | succ n ih =>
    intro s h
    have hstep := getNewTableNumber_eq s (by omega)
    have hrest := ih { s with _nextTableNumber := s._nextTableNumber + 1 }
      (by simp only; omega)
    simp only [Core.tableNumbers, hstep, hrest, List.range'_succ]

/-- Counterexample to C6 as stated: after `start` has put both the counter and
the configured base at `TABLE_BASE_OFFSET` (100 here), the first call of
`getNewTableNumber` returns 101, not the configured base. -/
theorem getNewTableNumber_first_not_base :
    ((sampleCore 0).startTableNumbers sampleConstants)._nextTableNumber =
        ((sampleCore 0).startTableNumbers sampleConstants)._config.baseTableNumber ∧
      (((sampleCore 0).startTableNumbers sampleConstants).tableNumbers 1).1 = [101] ∧
      (((sampleCore 0).startTableNumbers sampleConstants).tableNumbers 1).1.head? ≠
        some ((sampleCore 0).startTableNumbers sampleConstants)._config.baseTableNumber := by
  refine ⟨rfl, rfl, ?_⟩
  decide

/-- Claim C6 as amended: `N ≥ 1` consecutive calls of `getNewTableNumber`,
starting with the counter at the configured base and not reaching `UINT_MAX`,
return the `N` consecutive numbers `base + 1, ..., base + N`: they are
strictly increasing and the first of them is the configured base plus one. -/
theorem getNewTableNumber_consecutive (s : Core) (N : Nat) (hN : 1 ≤ N)
    (hbase : s._nextTableNumber = s._config.baseTableNumber)
    (hmax : s._nextTableNumber + N < UINT_MAX) :
    (s.tableNumbers N).1 = List.range' (s._config.baseTableNumber + 1) N ∧
      (s.tableNumbers N).1.length = N ∧
      List.Pairwise (fun a b => a < b) (s.tableNumbers N).1 ∧
      (s.tableNumbers N).1.head? = some (s._config.baseTableNumber + 1) := by
  have heq := tableNumbers_eq_range N s hmax
  rw [hbase] at heq
  refine ⟨heq, ?_, ?_, ?_⟩
  · rw [heq, List.length_range']
  · rw [heq]
    exact List.pairwise_lt_range' _ _
  · rw [heq]
    obtain ⟨n, rfl⟩ : ∃ n, N = n + 1 := ⟨N - 1, by omega⟩
    simp [List.range'_succ]

/-- Witness of the amended C6: three calls from counter and base 100. -/
theorem getNewTableNumber_consecutive_witness :
    ((sampleCore 0).tableNumbers 3).1 =
        List.range' ((sampleCore 0)._config.baseTableNumber + 1) 3 ∧
      ((sampleCore 0).tableNumbers 3).1.length = 3 ∧
      List.Pairwise (fun a b => a < b) ((sampleCore 0).tableNumbers 3).1 ∧
      ((sampleCore 0).tableNumbers 3).1.head? =
        some ((sampleCore 0)._config.baseTableNumber + 1) :=
  getNewTableNumber_consecutive (sampleCore 0) 3 (by decide) rfl (by decide)

/-- Claim C7: `updateBaseTableNumber n` leaves the allocation counter at the
maximum of its old value and `n`: a number above the counter becomes the
counter, a number at or below it leaves the counter as it is, and the counter
never decreases. -/
theorem updateBaseTableNumber_counter_max (s : Core) (n : Nat) :
    (s.updateBaseTableNumber n)._nextTableNumber = max s._nextTableNumber n ∧
      (s._nextTableNumber < n → (s.updateBaseTableNumber n)._nextTableNumber = n) ∧
      (n ≤ s._nextTableNumber →
        (s.updateBaseTableNumber n)._nextTableNumber = s._nextTableNumber) ∧
      s._nextTableNumber ≤ (s.updateBaseTableNumber n)._nextTableNumber := by
  by_cases h : n ≤ s._nextTableNumber
  · have hval : (s.updateBaseTableNumber n)._nextTableNumber = s._nextTableNumber := by
      simp [Core.updateBaseTableNumber, h]
    refine ⟨?_, ?_, ?_, ?_⟩
    · rw [hval, max_eq_left h]
    · intro hlt; omega
    · intro _; exact hval
    · rw [hval]
  · have hval : (s.updateBaseTableNumber n)._nextTableNumber = n := by
      simp [Core.updateBaseTableNumber, h]
    refine ⟨?_, ?_, ?_, ?_⟩
    · rw [hval, max_eq_right (by omega)]
    · intro _; exact hval
    · intro hle; exact absurd hle h
    · rw [hval]; omega
/-- One call of `getNewInstanceNumber` from a counter `a - 1` with
`a ≤ MAX_INSTANCES`: the number returned and stored is `a % MAX_INSTANCES`. -/
theorem getNewInstanceNumber_step (K : Constants) (s : Core) (M a : Nat)
    (hM : K.MAX_INSTANCES = (M : Int)) (hpos : 0 < M) (hS32 : M < 2147483648)
    (hs : s._nextInstance = (a : Int) - 1) (ha : a ≤ M) :
    s.getNewInstanceNumber K = (a % M, { s with _nextInstance := ((a % M : Nat) : Int) }) := by
  have hwrap : wrapS32 (s._nextInstance + 1) = (a : Int) := by
    simp only [wrapS32, hs]
    omega
  rcases Nat.lt_or_ge a M with hlt | hge
  · have hmod : a % M = a := Nat.mod_eq_of_lt hlt
    by_cases ha0 : a = 0
    · subst ha0
      simp [Core.getNewInstanceNumber, hwrap, hM, toU32]
    · have hne : ¬ ((a : Int).tmod (M : Int) = 0) := by
        rw [Int.tmod_eq_emod (by omega) (by omega)]
        have : ((a : Int) % (M : Int)) = (a : Int) := Int.emod_eq_of_lt (by omega) (by omega)
        omega
      have hu : toU32 (a : Int) = a := by
        simp only [toU32]
        omega
      simp [Core.getNewInstanceNumber, hwrap, hM, hne, hmod, hu]
  · have haM : a = M := le_antisymm ha hge
    subst haM
    simp [Core.getNewInstanceNumber, hwrap, hM, toU32]

/-- The numbers of consecutive calls of `getNewInstanceNumber` from a counter
`a - 1` with `a ≤ MAX_INSTANCES`. -/
theorem instanceNumbers_eq (K : Constants) (M : Nat)
    (hM : K.MAX_INSTANCES = (M : Int)) (hpos : 0 < M) (hS32 : M < 2147483648) (n : Nat) :
    ∀ (s : Core) (a : Nat), s._nextInstance = (a : Int) - 1 → a ≤ M →
      (s.instanceNumbers K n).1 = (List.range n).map (fun k => (a + k) % M) := by
  induction n with
  | zero => intro s a _ _; rfl
  | succ n ih =>
    intro s a hs ha
    have hstep := getNewInstanceNumber_step K s M a hM hpos hS32 hs ha
    have hlt : a % M < M := Nat.mod_lt a hpos
    have hrest := ih { s with _nextInstance := ((a % M : Nat) : Int) } (a % M + 1)
      (by simp) (by omega)
    simp only [Core.instanceNumbers, hstep, hrest, List.range_succ_eq_map, List.map_cons,
      List.map_map, Nat.add_zero]
    congr 1
    apply List.map_congr_left
    intro k _
    simp only [Function.comp]
    rw [show a % M + 1 + k = a % M + (1 + k) by ring, show a + (k + 1) = a + (1 + k) by ring,
      Nat.mod_add_mod]

/-- Claim C8: from the reset instance counter `INDEX_INVALID` the `k`-th call
of `getNewInstanceNumber` returns `(k - 1) mod MAX_INSTANCES` (the list of the
first `n` numbers is `0 mod M, 1 mod M, ..., (n - 1) mod M`), every number
returned is below `MAX_INSTANCES`, and the first `MAX_INSTANCES + 1` calls
return `0, 1, ..., MAX_INSTANCES - 1, 0`: the sequence wraps to `0` once, on
the last call. -/
theorem getNewInstanceNumber_sequence (K : Constants) (s : Core) (M : Nat)
    (hM : K.MAX_INSTANCES = (M : Int)) (hpos : 0 < M) (hS32 : M < 2147483648)
    (hreset : s._nextInstance = INDEX_INVALID) :
    (∀ n, (s.instanceNumbers K n).1 = (List.range n).map (fun k => k % M)) ∧
      (∀ n, ∀ x ∈ (s.instanceNumbers K n).1, x < M) ∧
      (s.instanceNumbers K (M + 1)).1 = List.range M ++ [0] := by
  have hall : ∀ n, (s.instanceNumbers K n).1 = (List.range n).map (fun k => k % M) := by
    intro n
    have h := instanceNumbers_eq K M hM hpos hS32 n s 0 (by simp [hreset, INDEX_INVALID])
      (Nat.zero_le M)
    simpa using h
  refine ⟨hall, ?_, ?_⟩
  · intro n x hx
    rw [hall n] at hx
    obtain ⟨k, _, rfl⟩ := List.mem_map.mp hx
    exact Nat.mod_lt k hpos
  · rw [hall (M + 1), List.range_succ, List.map_append]
    congr 1
    · conv_rhs => rw [← List.map_id (List.range M)]
      apply List.map_congr_left
      intro k hk
      exact Nat.mod_eq_of_lt (List.mem_range.mp hk)
    · simp

/-- Witness of C8: with `MAX_INSTANCES = 4` the first five calls return
`0, 1, 2, 3, 0`. -/
theorem getNewInstanceNumber_sequence_witness :
    (∀ n, ((sampleCore 0).instanceNumbers sampleConstants n).1 =
        (List.range n).map (fun k => k % 4)) ∧
      (∀ n, ∀ x ∈ ((sampleCore 0).instanceNumbers sampleConstants n).1, x < 4) ∧
      ((sampleCore 0).instanceNumbers sampleConstants (4 + 1)).1 = List.range 4 ++ [0] :=
  getNewInstanceNumber_sequence sampleConstants (sampleCore 0) 4 rfl (by decide) (by decide) rfl
/-- The decimal value of a digit character. -/
theorem digitChar_value (d : Nat) (h : d < 10) : (Nat.digitChar d).toNat - 48 = d := by
  interval_cases d <;> rfl

/-- Reading the digits written by `Nat.toDigitsCore` in front of `rest`
continues from the number written. -/
theorem foldl_toDigitsCore (fuel : Nat) :
    ∀ (n : Nat) (rest : List Char), n < fuel →
      (Nat.toDigitsCore 10 fuel n rest).foldl
          (fun value digit => value * 10 + (digit.toNat - 48)) 0 =
        rest.foldl (fun value digit => value * 10 + (digit.toNat - 48)) n := by
  induction fuel with
  | zero => intro n rest h; omega
  | succ fuel ih =>
    intro n rest h
    have hd := digitChar_value (n % 10) (Nat.mod_lt n (by decide))
    by_cases hq : n / 10 = 0
    · have hn : n % 10 = n := by omega
      rw [hn] at hd
      simp only [Nat.toDigitsCore, hq, if_true, List.foldl_cons, hn, hd]
      simp
    · have hlt : n / 10 < fuel := by omega
      simp only [Nat.toDigitsCore, hq, if_false, ih (n / 10) _ hlt, List.foldl_cons, hd]
      congr 1
      omega

/-- The decimal text of a natural number denotes that number. -/
theorem decimalValue_repr (n : Nat) : decimalValue (Nat.repr n).data = n := by
  simp only [decimalValue, Nat.repr, Nat.toDigits, List.asString]
  rw [foldl_toDigitsCore (n + 1) n [] (Nat.lt_succ_self n)]
  rfl

/-- Zeros in front of a decimal text do not change the number it denotes. -/
theorem decimalValue_zeros (k : Nat) (digits : List Char) :
    decimalValue (List.replicate k '0' ++ digits) = decimalValue digits := by
  induction k with
  | zero => rfl
  | succ k ih =>
    simp only [decimalValue, List.replicate_succ, List.cons_append, List.foldl_cons] at ih ⊢
    exact ih

/-- The text of the stream for a natural number below one million. -/
theorem streamFillWidth_nat (n : Nat) :
    streamFillWidth '0' 6 (n : Int) =
      String.mk (List.replicate (6 - (Nat.repr n).length) '0' ++ (Nat.repr n).data) := by
  rfl

/-- Claim C9: for every instrument identifier and every instance number `n`
the instance counter produces (`n < MAX_INSTANCES`, with `MAX_INSTANCES` at
most one million), `getInstanceString` returns the instrument identifier in
decimal, a `.` and a text of exactly 6 characters that is `n` in decimal with
`0` characters in front; and two such instance numbers with the same name for
the same instrument are equal. -/
theorem getInstanceString_format (K : Constants) (instrument : Int) (n : Nat)
    (hK : K.MAX_INSTANCES ≤ 1000000) (hn : (n : Int) < K.MAX_INSTANCES) :
    (∃ k, getInstanceString instrument n =
          toStringS32 instrument ++ "." ++ String.mk (List.replicate k '0' ++ (Nat.repr n).data) ∧
        (List.replicate k '0' ++ (Nat.repr n).data).length = 6) ∧
      ∀ m : Nat, (m : Int) < K.MAX_INSTANCES →
        getInstanceString instrument m = getInstanceString instrument n → m = n := by
  have hlen : (Nat.repr n).length ≤ 6 := Nat.repr_length n 6 (by decide) (by omega)
  refine ⟨⟨6 - (Nat.repr n).length, ?_, ?_⟩, ?_⟩
  · simp only [getInstanceString, streamFillWidth_nat]
  · simp only [List.length_append, List.length_replicate]
    have : (Nat.repr n).data.length = (Nat.repr n).length := rfl
    omega
  · intro m _ heq
    simp only [getInstanceString, streamFillWidth_nat] at heq
    have hdata := congrArg String.data heq
    simp only [String.data_append, List.append_cancel_left_eq] at hdata
    have hval := congrArg decimalValue hdata
    simpa only [decimalValue_zeros, decimalValue_repr] using hval

/-- Witness of C9: instrument 2 and instance 3 with `MAX_INSTANCES = 4`. -/
theorem getInstanceString_format_witness :
    (∃ k, getInstanceString 2 (3 : Nat) =
          toStringS32 2 ++ "." ++ String.mk (List.replicate k '0' ++ (Nat.repr 3).data) ∧
        (List.replicate k '0' ++ (Nat.repr 3).data).length = 6) ∧
      ∀ m : Nat, (m : Int) < sampleConstants.MAX_INSTANCES →
        getInstanceString 2 m = getInstanceString 2 (3 : Nat) → m = 3 :=
  getInstanceString_format sampleConstants 2 3 (by decide) (by decide)
/-- Claim C10: for every sound and sound parameter type whose mapping has no
bound control parameter, `getMappedValue` returns the configured default
value of that sound parameter, whatever the type, tables and modifiers of the
mapping are, and leaves the state as it was: no message is sent to the
engine. -/
theorem getMappedValue_unbound (K : Constants) (s : Core) (sound : mqSound)
    (soundParamType : SoundParamType)
    (h : (sound.mappings soundParamType).controlParam = none) :
    s.getMappedValue K sound soundParamType =
        .ok ((s.soundParams soundParamType).defaultVal, s) ∧
      ∀ value after, s.getMappedValue K sound soundParamType = .ok (value, after) →
        value = (s.soundParams soundParamType).defaultVal ∧
          after._wrapper.calls = s._wrapper.calls := by
  have hval : s.getMappedValue K sound soundParamType =
      .ok ((s.soundParams soundParamType).defaultVal, s) := by
    simp [Core.getMappedValue, h]
  refine ⟨hval, ?_⟩
  intro value after hres
  rw [hval] at hres
  injection hres with hpair
  injection hpair with h1 h2
  exact ⟨h1.symm, by rw [h2]⟩

/-- Witness of C10: an unbound `RANGE` mapping with three modifiers; the
amplitude is the default `0.5` and the engine has received nothing. -/
theorem getMappedValue_unbound_witness :
    (sampleCore 5).getMappedValue sampleConstants
          (sampleSound (sampleMapping .RANGE none [0, 10, 20])) .NOTE_AMPLITUDE =
        .ok (((sampleCore 5).soundParams .NOTE_AMPLITUDE).defaultVal, sampleCore 5) ∧
      ∀ value after,
        (sampleCore 5).getMappedValue sampleConstants
            (sampleSound (sampleMapping .RANGE none [0, 10, 20])) .NOTE_AMPLITUDE =
          .ok (value, after) →
        value = ((sampleCore 5).soundParams .NOTE_AMPLITUDE).defaultVal ∧
          after._wrapper.calls = (sampleCore 5)._wrapper.calls :=
  getMappedValue_unbound sampleConstants (sampleCore 5)
    (sampleSound (sampleMapping .RANGE none [0, 10, 20])) .NOTE_AMPLITUDE rfl

/-! ### Frames of the morphing functions -/

/-- Nothing more received and nothing more drawn is the same state. -/
theorem advance_nil (s : Core) : s.advance [] 0 = s := by
  simp [Core.advance]

/-- Two advances in a row are one advance. -/
theorem advance_advance (s : Core) (c1 c2 : List EngineCall) (k1 k2 : Nat) :
    (s.advance c1 k1).advance c2 k2 = s.advance (c1 ++ c2) (k1 + k2) := by
  simp [Core.advance, List.append_assoc, Nat.add_assoc]

/-- The morph index does not depend on the engine log or on the random
source. -/
theorem getMorphTableListIndex_advance (s : Core) (calls : List EngineCall) (draws : Nat)
    (mapping : mqMapping) :
    (s.advance calls draws).getMorphTableListIndex mapping =
      s.getMorphTableListIndex mapping := rfl

/-- One morph message, as an advance of the state. -/
theorem morphTable_eq_advance (K : Constants) (s : Core) (morphIndex : ℚ)
    (table tableTable : Int) :
    s.morphTable K morphIndex table tableTable =
      s.advance [EngineCall.sendMessage
        (specMorphMessage K s._wrapper.controlPeriodDuration morphIndex tableTable table)] 0 := by
  simp [Core.morphTable, Core.advance, CsoundWrapper.sendMessage, specMorphMessage]

/-- With a control parameter that can be read, `getMorphTableListIndex`
returns a value. -/
theorem getMorphTableListIndex_total (s : Core) (mapping : mqMapping) (cp : mqControlParam)
    (hcp : s.deref mapping.controlParam = some cp) :
    ∃ morphIndex, s.getMorphTableListIndex mapping = .ok morphIndex := by
  obtain ⟨r, hr, hcases⟩ := morphIndexLoop_spec cp mapping.modifiers 0 INDEX_INVALID
  rcases hcases with ⟨hidx, _⟩ | ⟨j, lower, hj, hrj, hle, hmax⟩
  · exact ⟨0, by simp [Core.getMorphTableListIndex, hcp, hr, hidx]⟩
  · have hrj2 : r = (j : Int) := by simpa using hrj
    have hinv : ¬ ((j : Int) = INDEX_INVALID) := by
      simp only [INDEX_INVALID]; omega
    cases hupper : mapping.modifiers[j + 1]? with
    | none =>
      have hlen : mapping.modifiers.length ≤ j + 1 := List.getElem?_eq_none_iff.mp hupper
      have hnot : ¬ ((j : Int) < (mapping.modifiers.length : Int) - 1) := by omega
      exact ⟨(j : ℚ), by simp [Core.getMorphTableListIndex, hcp, hr, hrj2, hinv, hnot]⟩
    | some upper =>
      have hlt : (j : Int) < (mapping.modifiers.length : Int) - 1 := by
        obtain ⟨h, _⟩ := List.getElem?_eq_some.mp hupper
        omega
      have hup : cp.value < upper.controlValue :=
        hmax (j + 1) upper hupper (Nat.lt_succ_self j)
      have hdelta : ¬ (upper.controlValue - lower.controlValue = 0) := by
        intro h
        linarith
      exact ⟨(j : ℚ) + (cp.value - lower.controlValue) /
          (upper.controlValue - lower.controlValue), by
        simp [Core.getMorphTableListIndex, hcp, hr, hrj2, hinv, hlt, hj, hupper, hdelta]⟩

/-- In a release build the debug test never holds. -/
theorem debugTableMissing_release (K : Constants) (hK : K.DEBUG = false) (s : Core)
    (table : Int) : s.debugTableMissing K table = false := by
  simp [Core.debugTableMissing, hK]

/-- The messages `morphTables` sends in a release build: the min side when
`type < UNDEFINED`, then the max and intra sides when `type > SEGMENT`, the
intra fraction being the next draw of the random source. -/
theorem morphTables_release (K : Constants) (hK : K.DEBUG = false) (s : Core)
    (mapping : mqMapping) (morphIndex : ℚ)
    (hindex : s.getMorphTableListIndex mapping = .ok morphIndex) :
    s.morphTables K mapping = .ok (s.advance
      ((if mapping.type.toNat < MappingType.UNDEFINED.toNat then
          [EngineCall.sendMessage (specMorphMessage K s._wrapper.controlPeriodDuration
            morphIndex mapping.morphMinTableTable.number mapping.morphMinTable.number)]
        else []) ++
        (if MappingType.SEGMENT.toNat < mapping.type.toNat then
          [EngineCall.sendMessage (specMorphMessage K s._wrapper.controlPeriodDuration
              morphIndex mapping.morphMaxTableTable.number mapping.morphMaxTable.number),
            EngineCall.sendMessage (specMorphMessage K s._wrapper.controlPeriodDuration
              (s.random.draws s.random.pos) mapping.morphIntraTableTable.number
              mapping.morphIntraTable.number)]
        else []))
      (if MappingType.SEGMENT.toNat < mapping.type.toNat then 1 else 0)) := by
  cases htype : mapping.type <;>
    simp [Core.morphTables, Core.morphTablesMax, hindex, htype, MappingType.toNat,
      debugTableMissing_release K hK, morphTable_eq_advance, random01, Core.advance,
      List.append_assoc]

/-- The morph index of the sample mapping with modifiers at 0 and 10 for the
control value 5. -/
theorem sample_morphIndex (type : MappingType) :
    (sampleCore 5).getMorphTableListIndex (sampleMapping type (some "intensity") [0, 10]) =
      .ok (1 / 2) := by
  simp [Core.getMorphTableListIndex, morphIndexLoop, sampleMapping, sampleModifier,
    sampleCore, Core.deref, mapGet, INDEX_INVALID]
  norm_num

/-- Claim C12, evaluated on the code: for a bound mapping of type `UNDEFINED`
with modifiers at 0 and 10, `morphTables` sends two morph messages, for the
max side (tables 14 and 13) and the intra side (tables 16 and 15), and
`resetMapping` issues six delete commands, for the max and intra tables and
for the max table of each modifier. -/
theorem undefined_mapping_morphs_and_deletes :
    (sampleCore 5).morphTables sampleConstants
        (sampleMapping .UNDEFINED (some "intensity") [0, 10]) =
      .ok ((sampleCore 5).advance
        [EngineCall.sendMessage (specMorphMessage sampleConstants (1 / 100) (1 / 2) 14 13),
          EngineCall.sendMessage (specMorphMessage sampleConstants (1 / 100) 0 16 15)] 1) ∧
      ((sampleCore 5).resetMapping
        (some (sampleMapping .UNDEFINED (some "intensity") [0, 10])))._wrapper.calls =
        [EngineCall.deleteTable 13, EngineCall.deleteTable 14, EngineCall.deleteTable 15,
          EngineCall.deleteTable 16, EngineCall.deleteTable 2, EngineCall.deleteTable 2] := by
  constructor
  · rw [morphTables_release sampleConstants rfl (sampleCore 5) _ (1 / 2) (sample_morphIndex _)]
    simp [sampleMapping, MappingType.toNat, sampleCore, sampleSegmentTable,
      sampleImmediateTable]
  · rfl

/-- Claim C13: in a release build, for a mapping whose bound control parameter
can be read, `morphTables` sends exactly one message when the type is
`CONSTANT` or `SEGMENT`, the morph message with the morph index as fraction,
`morphMinTableTable` as table of tables and `morphMinTable` as destination;
and exactly three messages when the type is `RANGE` or `MASK`, in the order
min, max, intra, the min and max messages with the morph index and the intra
message with `morphIntraTableTable`, `morphIntraTable` and the next draw of
the random source, which does not depend on the control value. -/
theorem morphTables_messages (K : Constants) (s : Core) (mapping : mqMapping)
    (cp : mqControlParam) (hK : K.DEBUG = false)
    (hcp : s.deref mapping.controlParam = some cp) :
    ∃ morphIndex after,
      s.getMorphTableListIndex mapping = .ok morphIndex ∧
      s.morphTables K mapping = .ok after ∧
      (mapping.type = MappingType.CONSTANT ∨ mapping.type = MappingType.SEGMENT →
        after._wrapper.calls = s._wrapper.calls ++
          [EngineCall.sendMessage (specMorphMessage K s._wrapper.controlPeriodDuration
            morphIndex mapping.morphMinTableTable.number mapping.morphMinTable.number)]) ∧
      (mapping.type = MappingType.RANGE ∨ mapping.type = MappingType.MASK →
        after._wrapper.calls = s._wrapper.calls ++
          [EngineCall.sendMessage (specMorphMessage K s._wrapper.controlPeriodDuration
              morphIndex mapping.morphMinTableTable.number mapping.morphMinTable.number),
            EngineCall.sendMessage (specMorphMessage K s._wrapper.controlPeriodDuration
              morphIndex mapping.morphMaxTableTable.number mapping.morphMaxTable.number),
            EngineCall.sendMessage (specMorphMessage K s._wrapper.controlPeriodDuration
              (s.random.draws s.random.pos) mapping.morphIntraTableTable.number
              mapping.morphIntraTable.number)]) := by
  obtain ⟨morphIndex, hindex⟩ := getMorphTableListIndex_total s mapping cp hcp
  refine ⟨morphIndex, _, hindex, morphTables_release K hK s mapping morphIndex hindex, ?_, ?_⟩
  · intro htype
    rcases htype with h | h <;> simp [h, MappingType.toNat, Core.advance]
  · intro htype
    rcases htype with h | h <;> simp [h, MappingType.toNat, Core.advance]

/-- Witness of C13: a bound `RANGE` mapping with modifiers at 0 and 10 and the
control value 5: three messages, the first two with the morph index `1/2`. -/
theorem morphTables_messages_witness :
    ∃ after,
      (sampleCore 5).morphTables sampleConstants
        (sampleMapping .RANGE (some "intensity") [0, 10]) = .ok after ∧
      after._wrapper.calls =
        [EngineCall.sendMessage (specMorphMessage sampleConstants (1 / 100) (1 / 2) 12 11),
          EngineCall.sendMessage (specMorphMessage sampleConstants (1 / 100) (1 / 2) 14 13),
          EngineCall.sendMessage (specMorphMessage sampleConstants (1 / 100) 0 16 15)] := by
  obtain ⟨morphIndex, after, hindex, hmorph, _, hrange⟩ :=
    morphTables_messages sampleConstants (sampleCore 5)
      (sampleMapping .RANGE (some "intensity") [0, 10])
      { name := "intensity", min := -10, max := 30, value := 5 } rfl rfl
  have hvalue : morphIndex = 1 / 2 := by
    have h := sample_morphIndex .RANGE
    rw [hindex] at h
    injection h
  refine ⟨after, hmorph, ?_⟩
  rw [hrange (Or.inl rfl), hvalue]
  simp [sampleMapping, sampleCore, sampleSegmentTable, sampleImmediateTable]
/-! ### Playing a sound -/

/-- Counterexample to C15 as stated: the sample configuration has no sound
`door.open`; `playSound` for it leaves `info.soundInstance` at 0, where it was
7, and the instance counter at 0, where it was `INDEX_INVALID`. -/
theorem playSound_unknown_sound_changes_state :
    (sampleCore 5).getSound (sampleInfo.sourceName ++ "." ++ sampleInfo.sourceEvent) = none ∧
      Except.map (fun result => (result.1.soundInstance, result.2._nextInstance))
        ((sampleCore 5).playSound sampleConstants sampleInfo) = .ok (0, 0) ∧
      sampleInfo.soundInstance = 7 ∧ (sampleCore 5)._nextInstance = -1 := by
  refine ⟨rfl, rfl, rfl, rfl⟩

/-- Claim C15 as amended: when `<sourceName>.<sourceEvent>` is not the name of
a sound in the config, `playSound` returns early after the allocation of the
instance number: `info.soundInstance` holds the new instance number and the
instance counter has advanced by one call of `getNewInstanceNumber`; no
message is sent to the engine, and the other fields of `info`, the config,
the table counter and the rest of the state are as before. -/
theorem playSound_unknown_sound (K : Constants) (s : Core) (info : mqSoundInfo)
    (h : info.sourceName ++ "." ++ info.sourceEvent ∉ s._config.sounds.map Prod.fst) :
    s.playSound K info =
        .ok ({ info with soundInstance := wrapS32 ((s.getNewInstanceNumber K).1 : Int) },
          (s.getNewInstanceNumber K).2) ∧
      (s.getNewInstanceNumber K).2 =
        { s with _nextInstance := (s.getNewInstanceNumber K).2._nextInstance } ∧
      (s.getNewInstanceNumber K).2._wrapper.calls = s._wrapper.calls := by
  have hnone : (s.getNewInstanceNumber K).2.getSound
      (info.sourceName ++ "." ++ info.sourceEvent) = none :=
    mapGet_eq_none _ _ h
  refine ⟨?_, rfl, rfl⟩
  simp only [Core.playSound, hnone]

/-- Witness of the amended C15: the sample configuration has no sounds. -/
theorem playSound_unknown_sound_witness :
    (sampleCore 5).playSound sampleConstants sampleInfo =
        .ok ({ sampleInfo with
            soundInstance := wrapS32 (((sampleCore 5).getNewInstanceNumber sampleConstants).1 : Int) },
          ((sampleCore 5).getNewInstanceNumber sampleConstants).2) ∧
      ((sampleCore 5).getNewInstanceNumber sampleConstants).2 =
        { sampleCore 5 with
          _nextInstance :=
            ((sampleCore 5).getNewInstanceNumber sampleConstants).2._nextInstance } ∧
      ((sampleCore 5).getNewInstanceNumber sampleConstants).2._wrapper.calls =
        (sampleCore 5)._wrapper.calls :=
  playSound_unknown_sound sampleConstants (sampleCore 5) sampleInfo (by simp [sampleCore])

/-- Claim C19: `stopSound` sends exactly one message, `i 1 0 <controlPeriod>
<instanceTag>` with the instance tag `info` held before the call, sets the
fields `soundInstance`, `soundInstanceString` and `soundCompleteName` of
`info` to their undefined values and leaves `sourceName`, `sourceEvent`, the
config and both counters unchanged. -/
theorem stopSound_effect (K : Constants) (s : Core) (info : mqSoundInfo) :
    (s.stopSound K info).2._wrapper.calls = s._wrapper.calls ++
        [EngineCall.sendMessage [Token.text "i", Token.text "1", Token.text "0",
          Token.f32 s._wrapper.controlPeriodDuration, Token.text info.soundInstanceString]] ∧
      (s.stopSound K info).1.soundInstance = K.UNDEFINED_INT ∧
      (s.stopSound K info).1.soundInstanceString = K.UNDEFINED_STR ∧
      (s.stopSound K info).1.soundCompleteName = K.UNDEFINED_STR ∧
      (s.stopSound K info).1.sourceName = info.sourceName ∧
      (s.stopSound K info).1.sourceEvent = info.sourceEvent ∧
      (s.stopSound K info).2._config = s._config ∧
      (s.stopSound K info).2._nextInstance = s._nextInstance ∧
      (s.stopSound K info).2._nextTableNumber = s._nextTableNumber :=
  ⟨rfl, rfl, rfl, rfl, rfl, rfl, rfl, rfl, rfl⟩

/-- The clamped value lies within the bounds when they are in order. -/
theorem clamp_mem (value min max : ℚ) (h : min ≤ max) :
    min ≤ clamp value min max ∧ clamp value min max ≤ max := by
  unfold clamp
  split_ifs with h1 h2
  · exact ⟨le_refl _, h⟩
  · exact ⟨h, le_refl _⟩
  · exact ⟨not_lt.mp h1, not_lt.mp h2⟩

/-- Claim C20: with the sound parameters as `start` sets them, for every sound
parameter type and every input value `setSoundParam` makes one call to the
engine, writing the input clamped into the bounds of that sound parameter,
which lies within these bounds, to the control channel
`<soundCompleteName>.<sound parameter name>`. -/
theorem setSoundParam_clamps (K : Constants) (s : Core) (param : SoundParamType) (value : ℚ)
    (info : mqSoundInfo) (hstart : s.soundParams = startSoundParams) :
    (s.setSoundParam K param value info)._wrapper.calls = s._wrapper.calls ++
        [EngineCall.setChannelControlInput
          (clamp value (s.soundParams param).min (s.soundParams param).max)
          (info.soundCompleteName ++ "." ++ K.SoundParamNames param)] ∧
      (s.soundParams param).min ≤
        clamp value (s.soundParams param).min (s.soundParams param).max ∧
      clamp value (s.soundParams param).min (s.soundParams param).max ≤
        (s.soundParams param).max := by
  have htype : (s.soundParams param).type = param := by
    rw [hstart]; cases param <;> rfl
  have hbounds : (s.soundParams param).min ≤ (s.soundParams param).max := by
    rw [hstart]; cases param <;> norm_num [startSoundParams]
  refine ⟨?_, clamp_mem _ _ _ hbounds⟩
  simp [Core.setSoundParam, Core.setChannelControlInput, htype]

/-- Witness of C20: after `start`, the amplitude 3 is written as 1 to the
channel of the sample sound. -/
theorem setSoundParam_clamps_witness :
    (((sampleCore 0).start sampleConstants 0).setSoundParam sampleConstants .NOTE_AMPLITUDE 3
        sampleInfo)._wrapper.calls =
      [EngineCall.setChannelControlInput 1 "door.open.2.000007.amplitude"] := by
  have h := (setSoundParam_clamps sampleConstants ((sampleCore 0).start sampleConstants 0)
    .NOTE_AMPLITUDE 3 sampleInfo rfl).1
  rw [h]
  simp only [Core.start, sampleCore, List.nil_append, startSoundParams, sampleInfo,
    sampleConstants]
  norm_num [clamp]
  rfl
/-! ### Creating tables, resetting and clearing -/

/-- Counterexample to C16 as stated: the engine reports table 120 as existing,
and `createImmediateTable` for an immediate table with number 120 sends the
create command and moves the allocation counter and the base table number
from 100 to 120; `createLinSegTable` does the same for a segment table. -/
theorem createImmediateTable_existing_not_noop :
    sampleCoreExisting._wrapper.tableExists 120 = true ∧
      sampleCoreExisting._nextTableNumber = 100 ∧
      sampleCoreExisting._config.baseTableNumber = 100 ∧
      (sampleCoreExisting.createImmediateTable sampleConstants
        (sampleImmediateTable 120)).2._wrapper.calls =
        [EngineCall.createImmediateTable (sampleImmediateTable 120)] ∧
      (sampleCoreExisting.createImmediateTable sampleConstants
        (sampleImmediateTable 120)).2._nextTableNumber = 120 ∧
      (sampleCoreExisting.createImmediateTable sampleConstants
        (sampleImmediateTable 120)).2._config.baseTableNumber = 120 ∧
      (sampleCoreExisting.createLinSegTable sampleConstants
        (sampleSegmentTable 120)).2._wrapper.calls =
        [EngineCall.createSegmentTable (sampleSegmentTable 120)] ∧
      (sampleCoreExisting.createLinSegTable sampleConstants
        (sampleSegmentTable 120)).2._nextTableNumber = 120 := by
  refine ⟨rfl, rfl, rfl, rfl, rfl, rfl, rfl, rfl⟩

/-- Claim C16 as amended: `createSampleTable` is a no-op when the requested
number of the table already exists in the engine: the call sends no create
command and leaves the table, the sample buffer, the allocation counter and
the base table number, with the rest of the state, unchanged. -/
theorem createSampleTable_existing (K : Constants) (s : Core) (table : mqSampleTable)
    (samples : List ℚ) (h : s._wrapper.tableExists table.number = true) :
    s.createSampleTable K table samples = (table, samples, s) ∧
      (s.createSampleTable K table samples).2.2._wrapper.calls = s._wrapper.calls ∧
      (s.createSampleTable K table samples).2.2._nextTableNumber = s._nextTableNumber ∧
      (s.createSampleTable K table samples).2.2._config.baseTableNumber =
        s._config.baseTableNumber := by
  have heq : s.createSampleTable K table samples = (table, samples, s) := by
    simp [Core.createSampleTable, h]
  rw [heq]
  exact ⟨rfl, rfl, rfl, rfl⟩

/-- Witness of the amended C16: a sample table with number 120 in an engine
in which every table exists. -/
theorem createSampleTable_existing_witness :
    sampleCoreExisting.createSampleTable sampleConstants
        { number := 120, size := 0, filename := "door.wav" } [] =
        ({ number := 120, size := 0, filename := "door.wav" }, [], sampleCoreExisting) ∧
      (sampleCoreExisting.createSampleTable sampleConstants
        { number := 120, size := 0, filename := "door.wav" } []).2.2._wrapper.calls =
        sampleCoreExisting._wrapper.calls ∧
      (sampleCoreExisting.createSampleTable sampleConstants
        { number := 120, size := 0, filename := "door.wav" } []).2.2._nextTableNumber =
        sampleCoreExisting._nextTableNumber ∧
      (sampleCoreExisting.createSampleTable sampleConstants
        { number := 120, size := 0, filename := "door.wav" } []).2.2._config.baseTableNumber =
        sampleCoreExisting._config.baseTableNumber :=
  createSampleTable_existing sampleConstants sampleCoreExisting
    { number := 120, size := 0, filename := "door.wav" } [] rfl

/-- Claim C17: `clearConfig` is idempotent.  After one call there are no
sounds and no control parameters, the instance counter is at its initial value
and the table counter and the base table number are at `TABLE_BASE_OFFSET`; a
second call leaves that state, the log of the engine included, as it is: it
issues no delete command. -/
theorem clearConfig_idempotent (K : Constants) (s : Core) :
    (s.clearConfig K).clearConfig K = s.clearConfig K ∧
      (s.clearConfig K)._config.sounds = [] ∧
      (s.clearConfig K)._config.controlParams = [] ∧
      (s.clearConfig K)._nextInstance = INDEX_INVALID ∧
      (s.clearConfig K)._nextTableNumber = K.TABLE_BASE_OFFSET ∧
      (s.clearConfig K)._config.baseTableNumber = K.TABLE_BASE_OFFSET ∧
      ((s.clearConfig K).clearConfig K)._wrapper.calls = (s.clearConfig K)._wrapper.calls := by
  have hsounds : (s.clearConfig K)._config.sounds = [] := rfl
  have heq : (s.clearConfig K).clearConfig K = s.clearConfig K := by
    conv_lhs => unfold Core.clearConfig
    simp only [hsounds, List.foldl_nil]
    rfl
  exact ⟨heq, rfl, rfl, rfl, rfl, rfl, by rw [heq]⟩
/-- One delete command, as an advance of the state. -/
theorem deleteTable_eq_advance (s : Core) (number : Int) :
    s.deleteTable number = s.advance [EngineCall.deleteTable number] 0 := by
  simp [Core.deleteTable, Core.advance]

/-- The delete commands of `resetMapping` for one modifier. -/
theorem resetModifier_eq_advance (s : Core) (type : MappingType) (modifier : mqModifier) :
    s.resetModifier type modifier = s.advance
      ((if type.toNat < MappingType.UNDEFINED.toNat then
          [EngineCall.deleteTable modifier.minTable.number] else []) ++
        (if MappingType.SEGMENT.toNat < type.toNat then
          [EngineCall.deleteTable modifier.maxTable.number] else [])) 0 := by
  unfold Core.resetModifier
  dsimp only
  split_ifs <;> simp [deleteTable_eq_advance, advance_advance, advance_nil]

/-- The delete commands of `resetMapping` for the modifiers. -/
theorem resetModifiers_eq_advance (type : MappingType) (modifiers : List mqModifier) :
    ∀ s : Core,
      modifiers.foldl (fun state modifier => state.resetModifier type modifier) s =
        s.advance (modifiers.flatMap (fun modifier =>
          (if type.toNat < MappingType.UNDEFINED.toNat then
            [EngineCall.deleteTable modifier.minTable.number] else []) ++
          (if MappingType.SEGMENT.toNat < type.toNat then
            [EngineCall.deleteTable modifier.maxTable.number] else []))) 0 := by
  induction modifiers with
  | nil => intro s; simp [advance_nil]
  | cons modifier rest ih =>
    intro s
    rw [List.foldl_cons, ih, resetModifier_eq_advance, advance_advance, List.flatMap_cons]

/-- The delete commands of `resetMapping`: they depend on the mapping only. -/
theorem resetMapping_eq_advance (s : Core) (m : mqMapping) :
    s.resetMapping (some m) = s.advance m.resetCalls 0 := by
  unfold Core.resetMapping mqMapping.resetCalls
  dsimp only
  rw [resetModifiers_eq_advance]
  split_ifs <;>
    simp [deleteTable_eq_advance, advance_advance, advance_nil, List.append_assoc]

/-- For a mapping of type `CONSTANT` or `SEGMENT` `resetMapping` issues delete
commands for `morphMinTable`, `morphMinTableTable` and the min table of each
modifier, and `morphTables` morphs the min side only.  For `RANGE` and `MASK`:
these and `morphMaxTable`, `morphMaxTableTable`, `morphIntraTable`,
`morphIntraTableTable` and the max table of each modifier, and `morphTables`
morphs the min, max and intra sides.  For every sound the body of the loop of
`clearConfig` deletes the sample table only when its number is not
`TABLE_UNDEFINED`, before the delete commands of the four mappings. -/
theorem resetMapping_deletes (K : Constants) (s : Core) (m : mqMapping) (sound : mqSound) :
    (m.type = MappingType.CONSTANT ∨ m.type = MappingType.SEGMENT →
      (s.resetMapping (some m))._wrapper.calls = s._wrapper.calls ++
        [EngineCall.deleteTable m.morphMinTable.number,
          EngineCall.deleteTable m.morphMinTableTable.number] ++
        m.modifiers.map (fun modifier => EngineCall.deleteTable modifier.minTable.number)) ∧
    (m.type = MappingType.RANGE ∨ m.type = MappingType.MASK →
      (s.resetMapping (some m))._wrapper.calls = s._wrapper.calls ++
        [EngineCall.deleteTable m.morphMinTable.number,
          EngineCall.deleteTable m.morphMinTableTable.number,
          EngineCall.deleteTable m.morphMaxTable.number,
          EngineCall.deleteTable m.morphMaxTableTable.number,
          EngineCall.deleteTable m.morphIntraTable.number,
          EngineCall.deleteTable m.morphIntraTableTable.number] ++
        m.modifiers.flatMap (fun modifier =>
          [EngineCall.deleteTable modifier.minTable.number,
            EngineCall.deleteTable modifier.maxTable.number])) ∧
    (∀ morphIndex, K.DEBUG = false → m.type ≠ MappingType.UNDEFINED →
      s.getMorphTableListIndex m = .ok morphIndex →
      ∃ calls draws, s.morphTables K m = .ok (s.advance calls draws) ∧
        List.Forall₂ (isMorphOf K s._wrapper.controlPeriodDuration) m.requiredSides calls) ∧
    (∃ rest,
      (∀ s0 : Core,
        ([SoundParamType.NOTE_DURATION, SoundParamType.NOTE_AMPLITUDE,
          SoundParamType.GRAIN_DENSITY, SoundParamType.GRAIN_SPATIAL_POSITION].foldl
          (fun state type => state.resetMapping (some (sound.mappings type)))
          s0)._wrapper.calls = s0._wrapper.calls ++ rest) ∧
      (s.clearSound K sound)._wrapper.calls = s._wrapper.calls ++
        (if sound.grainWaveTable.number ≠ K.TABLE_UNDEFINED then
          [EngineCall.deleteTable sound.grainWaveTable.number] else []) ++ rest) := by
  refine ⟨?_, ?_, ?_, ?_⟩
  · intro htype
    have hmap : ∀ l : List mqModifier,
        l.flatMap (fun modifier => [EngineCall.deleteTable modifier.minTable.number]) =
          l.map (fun modifier => EngineCall.deleteTable modifier.minTable.number) := by
      intro l
      induction l with
      | nil => rfl
      | cons modifier rest ih => simp [List.flatMap_cons, ih]
    rw [resetMapping_eq_advance]
    rcases htype with h | h <;>
      simp [mqMapping.resetCalls, h, MappingType.toNat, Core.advance, hmap]
  · intro htype
    rw [resetMapping_eq_advance]
    rcases htype with h | h <;>
      simp [mqMapping.resetCalls, h, MappingType.toNat, Core.advance]
  · intro morphIndex hK hdefined hindex
    refine ⟨_, _, morphTables_release K hK s m morphIndex hindex, ?_⟩
    cases htype : m.type
    · simp only [mqMapping.requiredSides, htype, MappingType.toNat, show (0 < 4) by decide,
        if_true, show ¬ (1 < 0) by decide, if_false, List.append_nil]
      exact List.Forall₂.cons ⟨_, rfl⟩ List.Forall₂.nil
    · simp only [mqMapping.requiredSides, htype, MappingType.toNat, show (1 < 4) by decide,
        if_true, show ¬ (1 < 1) by decide, if_false, List.append_nil]
      exact List.Forall₂.cons ⟨_, rfl⟩ List.Forall₂.nil
    · simp only [mqMapping.requiredSides, htype, MappingType.toNat, show (2 < 4) by decide,
        if_true, show (1 < 2) by decide, List.singleton_append]
      exact List.Forall₂.cons ⟨_, rfl⟩
        (List.Forall₂.cons ⟨_, rfl⟩ (List.Forall₂.cons ⟨_, rfl⟩ List.Forall₂.nil))
    · simp only [mqMapping.requiredSides, htype, MappingType.toNat, show (3 < 4) by decide,
        if_true, show (1 < 3) by decide, List.singleton_append]
      exact List.Forall₂.cons ⟨_, rfl⟩
        (List.Forall₂.cons ⟨_, rfl⟩ (List.Forall₂.cons ⟨_, rfl⟩ List.Forall₂.nil))
    · exact absurd htype hdefined
  · refine ⟨(sound.mappings SoundParamType.NOTE_DURATION).resetCalls ++
      (sound.mappings SoundParamType.NOTE_AMPLITUDE).resetCalls ++
      (sound.mappings SoundParamType.GRAIN_DENSITY).resetCalls ++
      (sound.mappings SoundParamType.GRAIN_SPATIAL_POSITION).resetCalls, ?_, ?_⟩
    · intro s0
      simp [List.foldl, resetMapping_eq_advance, advance_advance, Core.advance,
        List.append_assoc]
    · unfold Core.clearSound
      dsimp only
      split_ifs <;>
        simp [List.foldl, resetMapping_eq_advance, deleteTable_eq_advance, advance_advance,
          Core.advance, List.append_assoc]

/-- The delete commands for a `SEGMENT` and a `MASK` mapping with modifiers at
0 and 10: four and ten. -/
theorem resetMapping_deletes_witness :
    ((sampleCore 5).resetMapping
        (some (sampleMapping .SEGMENT (some "intensity") [0, 10])))._wrapper.calls =
        [EngineCall.deleteTable 11, EngineCall.deleteTable 12, EngineCall.deleteTable 1,
          EngineCall.deleteTable 1] ∧
      ((sampleCore 5).resetMapping
        (some (sampleMapping .MASK (some "intensity") [0, 10])))._wrapper.calls =
        [EngineCall.deleteTable 11, EngineCall.deleteTable 12, EngineCall.deleteTable 13,
          EngineCall.deleteTable 14, EngineCall.deleteTable 15, EngineCall.deleteTable 16,
          EngineCall.deleteTable 1, EngineCall.deleteTable 2, EngineCall.deleteTable 1,
          EngineCall.deleteTable 2] := by
  constructor
  · rw [(resetMapping_deletes sampleConstants (sampleCore 5)
      (sampleMapping .SEGMENT (some "intensity") [0, 10])
      (sampleSound (sampleMapping .SEGMENT none []))).1 (Or.inr rfl)]
    rfl
  · rw [(resetMapping_deletes sampleConstants (sampleCore 5)
      (sampleMapping .MASK (some "intensity") [0, 10])
      (sampleSound (sampleMapping .SEGMENT none []))).2.1 (Or.inr rfl)]
    rfl

/-- Claim C18, evaluated on the code.  A mapping of type `UNDEFINED` requires
no table side, and `resetMapping` issues four delete commands for it, for the
tables of the max and intra sides, 13 to 16.  `clearConfig`, for a
configuration with one sound whose sample table is 7, whose amplitude mapping
is a `SEGMENT` mapping with one modifier and whose other three mappings are of
type `UNDEFINED`, deletes table 7, then tables 11, 12 and 1 for the `SEGMENT`
mapping, and tables 13 to 16 three times, once for each `UNDEFINED`
mapping. -/
theorem resetMapping_undefined_deletes_max_side :
    (sampleMapping .UNDEFINED none []).requiredSides = [] ∧
      ((sampleCore 5).resetMapping (some (sampleMapping .UNDEFINED none [])))._wrapper.calls =
        [EngineCall.deleteTable 13, EngineCall.deleteTable 14, EngineCall.deleteTable 15,
          EngineCall.deleteTable 16] ∧
      ((sampleCoreWith (sampleSoundOne .NOTE_AMPLITUDE (sampleMapping .SEGMENT none [0]))
        5).clearConfig sampleConstants)._wrapper.calls =
        [EngineCall.deleteTable 7,
          EngineCall.deleteTable 13, EngineCall.deleteTable 14, EngineCall.deleteTable 15,
          EngineCall.deleteTable 16,
          EngineCall.deleteTable 11, EngineCall.deleteTable 12, EngineCall.deleteTable 1,
          EngineCall.deleteTable 13, EngineCall.deleteTable 14, EngineCall.deleteTable 15,
          EngineCall.deleteTable 16,
          EngineCall.deleteTable 13, EngineCall.deleteTable 14, EngineCall.deleteTable 15,
          EngineCall.deleteTable 16] := by
  refine ⟨rfl, rfl, rfl⟩

/-! ### Direct curve interpolation -/

/-- The three early cases of `interpolateSoundParam`: it returns the default
value for a mapping with no bound control parameter, and for a bound mapping
whose first modifier has an undefined min table; for a bound mapping with an
empty modifier list it reads `modifiers[0]`, which is out of range, and
returns no value. -/
theorem interpolateSoundParam_cases (K : Constants) (s : Core) (soundParam : mqSoundParam)
    (mapping : mqMapping) :
    (mapping.controlParam = none →
      s.interpolateSoundParam K soundParam mapping = .ok soundParam.defaultVal) ∧
    (∀ first, mapping.controlParam ≠ none → mapping.modifiers[0]? = some first →
      first.minTable.number = K.TABLE_UNDEFINED →
      s.interpolateSoundParam K soundParam mapping = .ok soundParam.defaultVal) ∧
    (mapping.controlParam ≠ none → mapping.modifiers = [] →
      s.interpolateSoundParam K soundParam mapping = .error Fault.outOfRange) := by
  refine ⟨?_, ?_, ?_⟩
  · intro h
    simp [Core.interpolateSoundParam, h]
  · intro first hbound hfirst hundefined
    simp [Core.interpolateSoundParam, hbound, hfirst, hundefined]
  · intro hbound hempty
    simp [Core.interpolateSoundParam, hbound, hempty]

/-- Claim C21, evaluated on the code: for the mapping bound to `intensity`
with an empty modifier list `interpolateSoundParam` reads `modifiers[0]` out
of range and returns no value, where the claim has the default value `1/2`
returned; the unbound mapping with an empty modifier list does return the
default value. -/
theorem interpolateSoundParam_empty_modifiers :
    (sampleRangeCore 18).interpolateSoundParam sampleConstants
        (startSoundParams .NOTE_AMPLITUDE) (sampleMapping .SEGMENT (some "intensity") []) =
        .error Fault.outOfRange ∧
      (sampleRangeCore 18).interpolateSoundParam sampleConstants
        (startSoundParams .NOTE_AMPLITUDE) (sampleMapping .SEGMENT none []) =
        .ok (startSoundParams .NOTE_AMPLITUDE).defaultVal :=
  ⟨(interpolateSoundParam_cases sampleConstants (sampleRangeCore 18)
      (startSoundParams .NOTE_AMPLITUDE) (sampleMapping .SEGMENT (some "intensity") [])).2.2
      (by simp [sampleMapping]) rfl,
    (interpolateSoundParam_cases sampleConstants (sampleRangeCore 18)
      (startSoundParams .NOTE_AMPLITUDE) (sampleMapping .SEGMENT none [])).1 rfl⟩

/-- Claim C22, evaluated on the code: control range `[10, 20]`, table of size
100 with breakpoints of values 1, 2, 3 and lengths 50, 50, 0.  At `value = 10`,
the minimum, the loop ends with `lowerX = 0` and `upperX = 15`, and the result
is `5/3`; the claim gives `lowerX = 10` and the result 1, the value of the
first breakpoint.  At `value = 18` the loop ends with `upperX = 30`; the claim
gives `10 + 100 / 100 * 10 = 20`. -/
theorem interpolateSoundParam_positions :
    interpolateLoop { name := "intensity", min := 10, max := 20, value := 10 } 100 10
        [{ value := 1, length := 50 }, { value := 2, length := 50 },
          { value := 3, length := 0 }] (0, 0, 0, 0) = (0, 1, 15, 2) ∧
      (sampleRangeCore 10).interpolateSoundParam sampleConstants
        (startSoundParams .NOTE_AMPLITUDE) sampleCurveMapping = .ok (5 / 3) ∧
      interpolateLoop { name := "intensity", min := 10, max := 20, value := 18 } 100 10
        [{ value := 1, length := 50 }, { value := 2, length := 50 },
          { value := 3, length := 0 }] (0, 0, 0, 0) = (15, 2, 30, 3) ∧
      (sampleRangeCore 18).interpolateSoundParam sampleConstants
        (startSoundParams .NOTE_AMPLITUDE) sampleCurveMapping = .ok (11 / 5) := by
  refine ⟨?_, ?_, ?_, ?_⟩
  · norm_num [interpolateLoop]
  · simp [Core.interpolateSoundParam, sampleCurveMapping, sampleMapping, sampleRangeCore,
      sampleCore, Core.deref, mapGet, sampleConstants, interpolateLoop, lerp]
    norm_num
  · norm_num [interpolateLoop]
  · simp [Core.interpolateSoundParam, sampleCurveMapping, sampleMapping, sampleRangeCore,
      sampleCore, Core.deref, mapGet, sampleConstants, interpolateLoop, lerp]
    norm_num
/-! ### Loading a configuration -/

/-- With a `NULL` control parameter and a modifier to visit, the loop of
`getMorphTableListIndex` reads through the pointer, in every state. -/
theorem getMorphTableListIndex_null (s : Core) (mapping : mqMapping) (modifier : mqModifier)
    (rest : List mqModifier) (hnull : mapping.controlParam = none)
    (hmodifiers : mapping.modifiers = modifier :: rest) :
    s.getMorphTableListIndex mapping = .error Fault.controlParamDeref := by
  simp [Core.getMorphTableListIndex, Core.deref, hnull, hmodifiers, morphIndexLoop]

/-- The morph pass over a mapping with `controlParam == NULL`: with at least
one modifier, `getMorphTableListIndex` reads `mapping.controlParam->value` in
its loop, so it, the `morphTables` call and the pass of `loadConfig` over the
mapping end in the dereference of the missing control parameter; only with an
empty modifier list does the call complete, with morph index 0. -/
theorem morph_unbound_cases (K : Constants) (s : Core) (mapping : mqMapping) :
    (∀ modifier rest, mapping.controlParam = none → mapping.modifiers = modifier :: rest →
      s.getMorphTableListIndex mapping = .error Fault.controlParamDeref ∧
      s.morphTables K mapping = .error Fault.controlParamDeref ∧
      ∀ dummyData, s.loadMapping K mapping dummyData = .error Fault.controlParamDeref) ∧
    (mapping.controlParam = none → mapping.modifiers = [] →
      s.getMorphTableListIndex mapping = .ok 0) := by
  constructor
  · intro modifier rest hnull hmodifiers
    have hindex := getMorphTableListIndex_null s mapping modifier rest hnull hmodifiers
    refine ⟨hindex, by simp [Core.morphTables, hindex], ?_⟩
    intro dummyData
    have hafter := getMorphTableListIndex_null (s.loadMappingTables K mapping) mapping
      modifier rest hnull hmodifiers
    simp [Core.loadMapping, hnull, Core.morphTables, hafter]
  · intro hnull hempty
    simp [Core.getMorphTableListIndex, Core.deref, hnull, hempty, morphIndexLoop]

/-- Claim C24, evaluated on the code: loading the parsed sample configuration,
whose sound has mappings with `controlParam == NULL` and one modifier each,
ends in the dereference of the missing control parameter, in the
`getMorphTableListIndex` call of the `morphTables` call of the morph pass. -/
theorem loadConfig_null_dereference :
    (sampleCore 5).loadConfig sampleConstants (some sampleParsedConfig) =
        .error Fault.controlParamDeref ∧
      (sampleCore 5).morphTables sampleConstants (sampleMapping .SEGMENT none [0]) =
        .error Fault.controlParamDeref ∧
      (sampleCore 5).getMorphTableListIndex (sampleMapping .SEGMENT none [0]) =
        .error Fault.controlParamDeref :=
  ⟨rfl,
    ((morph_unbound_cases sampleConstants (sampleCore 5)
      (sampleMapping .SEGMENT none [0])).1 (sampleModifier 0) [] rfl rfl).2.1,
    ((morph_unbound_cases sampleConstants (sampleCore 5)
      (sampleMapping .SEGMENT none [0])).1 (sampleModifier 0) [] rfl rfl).1⟩
/-! ### Sequences of table operations -/

/-- A `U32` stored in an `S32` and read back is the same number. -/
theorem toU32_wrapS32 (n : Nat) (h : n < 4294967296) : toU32 (wrapS32 (n : Int)) = n := by
  simp only [toU32, wrapS32]
  omega

/-- The counter after `updateBaseTableNumber` is the greater of the counter
and the number, and the base table number equals it. -/
theorem updateBaseTableNumber_spec (s : Core) (number : Nat) :
    (s.updateBaseTableNumber number)._nextTableNumber = max s._nextTableNumber number ∧
      (s.updateBaseTableNumber number)._config.baseTableNumber =
        (s.updateBaseTableNumber number)._nextTableNumber := by
  by_cases h : number ≤ s._nextTableNumber
  · simp [Core.updateBaseTableNumber, h]
  · simp [Core.updateBaseTableNumber, h]
    omega

/-- The engine log after `updateBaseTableNumber`. -/
theorem updateBaseTableNumber_calls (s : Core) (number : Nat) :
    (s.updateBaseTableNumber number)._wrapper = s._wrapper := by
  unfold Core.updateBaseTableNumber
  split_ifs <;> rfl

/-- What a create function that reaches the engine leaves, from the state
`s1` in which the table has its number `stored` and the create command
`call`: the counter and the base table number are the greater of the counter
of `s1` and the number, and the log has grown by the command. -/
theorem registered_spec (s1 : Core) (call : EngineCall) (stored : Int) :
    ((s1.sendCreate call).updateBaseTableNumber (toU32 stored))._nextTableNumber =
        max s1._nextTableNumber (toU32 stored) ∧
      ((s1.sendCreate call).updateBaseTableNumber (toU32 stored))._config.baseTableNumber =
        max s1._nextTableNumber (toU32 stored) ∧
      ((s1.sendCreate call).updateBaseTableNumber (toU32 stored))._wrapper.calls =
        s1._wrapper.calls ++ [call] := by
  obtain ⟨h1, h2⟩ := updateBaseTableNumber_spec (s1.sendCreate call) (toU32 stored)
  refine ⟨h1, by rw [h2, h1]; rfl, ?_⟩
  rw [updateBaseTableNumber_calls]
  rfl

/-- The event of a create call that reaches the engine, for a table that came
with the number `given` and leaves with the number `stored`: it is not
`existing`, its number is at most the counter after the call, and when it is
fresh its number is above the counter before the call. -/
theorem createEvent_spec (K : Constants) (s after : Core) (given stored : Int)
    (call : EngineCall)
    (hbelow : s._nextTableNumber + 1 < UINT_MAX)
    (hstored : stored =
      if given = K.TABLE_UNDEFINED then wrapS32 ((s._nextTableNumber + 1 : Nat) : Int)
      else given)
    (hcounter : after._nextTableNumber =
      max (if given = K.TABLE_UNDEFINED then s._nextTableNumber + 1 else s._nextTableNumber)
        (toU32 stored))
    (hcalls : after._wrapper.calls = s._wrapper.calls ++ [call]) :
    (s.createEvent K after given stored).isExisting = false ∧
      s._nextTableNumber ≤ after._nextTableNumber ∧
      (s.createEvent K after given stored).number ≤ after._nextTableNumber ∧
      ((s.createEvent K after given stored).isFresh = true →
        s._nextTableNumber < (s.createEvent K after given stored).number) := by
  have hlen : ¬ (after._wrapper.calls.length = s._wrapper.calls.length) := by
    rw [hcalls]
    simp
  have hmax : s._nextTableNumber + 1 < 4294967296 := by
    simp only [UINT_MAX] at hbelow
    omega
  by_cases hundefined : given = K.TABLE_UNDEFINED
  · simp only [hundefined, if_true] at hstored hcounter
    rw [hstored, toU32_wrapS32 _ hmax, max_self] at hcounter
    simp only [Core.createEvent, hlen, if_false, hundefined, if_true, hstored,
      toU32_wrapS32 _ hmax, TableEvent.isExisting, TableEvent.number, TableEvent.isFresh,
      hcounter]
    exact ⟨trivial, by omega, le_rfl, fun _ => by omega⟩
  · simp only [hundefined, if_false] at hstored hcounter
    simp only [Core.createEvent, hlen, if_false, hundefined, TableEvent.isExisting,
      TableEvent.number, TableEvent.isFresh, hcounter]
    exact ⟨trivial, le_max_left _ _, le_max_right _ _, fun h => by simp at h⟩

/-- What `createImmediateTable` leaves. -/
theorem createImmediateTable_spec (K : Constants) (s : Core) (table : mqImmediateTable)
    (hbelow : s._nextTableNumber + 1 < UINT_MAX) :
    (s.createImmediateTable K table).1.number =
        (if table.number = K.TABLE_UNDEFINED then
          wrapS32 ((s._nextTableNumber + 1 : Nat) : Int)
        else table.number) ∧
      (s.createImmediateTable K table).2._nextTableNumber =
        max (if table.number = K.TABLE_UNDEFINED then s._nextTableNumber + 1
          else s._nextTableNumber) (toU32 (s.createImmediateTable K table).1.number) ∧
      (s.createImmediateTable K table).2._config.baseTableNumber =
        (s.createImmediateTable K table).2._nextTableNumber ∧
      (s.createImmediateTable K table).2._wrapper.calls = s._wrapper.calls ++
        [EngineCall.createImmediateTable (s.createImmediateTable K table).1] := by
  have hnew := getNewTableNumber_eq s hbelow
  by_cases h : table.number = K.TABLE_UNDEFINED
  · simp only [Core.createImmediateTable, h, if_true, hnew]
    obtain ⟨h1, h2, h3⟩ := registered_spec { s with _nextTableNumber := s._nextTableNumber + 1 }
      (EngineCall.createImmediateTable
        { table with number := wrapS32 ((s._nextTableNumber + 1 : Nat) : Int) })
      (wrapS32 ((s._nextTableNumber + 1 : Nat) : Int))
    exact ⟨trivial, h1, by rw [h2, h1], h3⟩
  · simp only [Core.createImmediateTable, h, if_false]
    obtain ⟨h1, h2, h3⟩ := registered_spec s (EngineCall.createImmediateTable table)
      table.number
    exact ⟨trivial, h1, by rw [h2, h1], h3⟩

/-- What `createLinSegTable` leaves. -/
theorem createLinSegTable_spec (K : Constants) (s : Core) (table : mqSegmentTable)
    (hbelow : s._nextTableNumber + 1 < UINT_MAX) :
    (s.createLinSegTable K table).1.number =
        (if table.number = K.TABLE_UNDEFINED then
          wrapS32 ((s._nextTableNumber + 1 : Nat) : Int)
        else table.number) ∧
      (s.createLinSegTable K table).2._nextTableNumber =
        max (if table.number = K.TABLE_UNDEFINED then s._nextTableNumber + 1
          else s._nextTableNumber) (toU32 (s.createLinSegTable K table).1.number) ∧
      (s.createLinSegTable K table).2._config.baseTableNumber =
        (s.createLinSegTable K table).2._nextTableNumber ∧
      (s.createLinSegTable K table).2._wrapper.calls = s._wrapper.calls ++
        [EngineCall.createSegmentTable (s.createLinSegTable K table).1] := by
  have hnew := getNewTableNumber_eq s hbelow
  by_cases h : table.number = K.TABLE_UNDEFINED
  · simp only [Core.createLinSegTable, h, if_true, hnew]
    obtain ⟨h1, h2, h3⟩ := registered_spec { s with _nextTableNumber := s._nextTableNumber + 1 }
      (EngineCall.createSegmentTable
        { table with number := wrapS32 ((s._nextTableNumber + 1 : Nat) : Int) })
      (wrapS32 ((s._nextTableNumber + 1 : Nat) : Int))
    exact ⟨trivial, h1, by rw [h2, h1], h3⟩
  · simp only [Core.createLinSegTable, h, if_false]
    obtain ⟨h1, h2, h3⟩ := registered_spec s (EngineCall.createSegmentTable table)
      table.number
    exact ⟨trivial, h1, by rw [h2, h1], h3⟩

/-- What a `createSampleTable` that is not a no-op leaves. -/
theorem createSampleTable_spec (K : Constants) (s : Core) (table : mqSampleTable)
    (samples : List ℚ) (hbelow : s._nextTableNumber + 1 < UINT_MAX)
    (hnew : s._wrapper.tableExists table.number = false) :
    (s.createSampleTable K table samples).1.number =
        (if table.number = K.TABLE_UNDEFINED then
          wrapS32 ((s._nextTableNumber + 1 : Nat) : Int)
        else table.number) ∧
      (s.createSampleTable K table samples).2.2._nextTableNumber =
        max (if table.number = K.TABLE_UNDEFINED then s._nextTableNumber + 1
          else s._nextTableNumber) (toU32 (s.createSampleTable K table samples).1.number) ∧
      (s.createSampleTable K table samples).2.2._config.baseTableNumber =
        (s.createSampleTable K table samples).2.2._nextTableNumber ∧
      ∃ call, (s.createSampleTable K table samples).2.2._wrapper.calls =
          s._wrapper.calls ++ [call] ∧
        call.createdNumber = some (s.createSampleTable K table samples).1.number := by
  have hnext := getNewTableNumber_eq s hbelow
  by_cases h : table.number = K.TABLE_UNDEFINED
  · have hnew1 : s._wrapper.tableExists K.TABLE_UNDEFINED = false := h ▸ hnew
    simp only [Core.createSampleTable, h, hnew1, if_true, hnext, Bool.false_eq_true,
      if_false]
    obtain ⟨h1, h2, h3⟩ := registered_spec { s with _nextTableNumber := s._nextTableNumber + 1 }
      (EngineCall.createSampleTable
        { table with number := wrapS32 ((s._nextTableNumber + 1 : Nat) : Int) })
      (wrapS32 ((s._nextTableNumber + 1 : Nat) : Int))
    exact ⟨trivial, h1, by rw [h2, h1], _, h3, rfl⟩
  · simp only [Core.createSampleTable, h, hnew, if_false, Bool.false_eq_true]
    obtain ⟨h1, h2, h3⟩ := registered_spec s (EngineCall.createSampleTable table)
      table.number
    exact ⟨trivial, h1, by rw [h2, h1], _, h3, rfl⟩

/-- A `createSampleTable` for a number the engine has returns at once. -/
theorem createSampleTable_skip (K : Constants) (s : Core) (table : mqSampleTable)
    (samples : List ℚ) (h : s._wrapper.tableExists table.number = true) :
    s.createSampleTable K table samples = (table, samples, s) := by
  simp [Core.createSampleTable, h]

/-- One call of the table registry below `UINT_MAX`: the counter does not
decrease, the number of an event other than `existing` is at most the counter
after the call, and a fresh number is above the counter before the call. -/
theorem tableStep_spec (K : Constants) (s : Core) (op : TableOp)
    (hbelow : s._nextTableNumber + 1 < UINT_MAX) :
    s._nextTableNumber ≤ (s.tableStep K op).1._nextTableNumber ∧
      ((s.tableStep K op).2.isExisting = false →
        (s.tableStep K op).2.number ≤ (s.tableStep K op).1._nextTableNumber) ∧
      ((s.tableStep K op).2.isFresh = true →
        s._nextTableNumber < (s.tableStep K op).2.number) := by
  cases op with
  | createSampleTable table samples engineTables =>
    cases hexists : engineTables table.number with
    | true =>
      have hskip := createSampleTable_skip K (s.withEngineTables engineTables) table samples
        hexists
      simp only [Core.tableStep, hskip, Core.createEvent, if_true, TableEvent.isExisting,
        TableEvent.isFresh]
      exact ⟨le_rfl, fun h => by simp at h, fun h => by simp at h⟩
    | false =>
      obtain ⟨h1, h2, _, call, h4, _⟩ := createSampleTable_spec K
        (s.withEngineTables engineTables) table samples hbelow hexists
      obtain ⟨_, e2, e3, e4⟩ := createEvent_spec K (s.withEngineTables engineTables) _
        table.number _ call hbelow h1 h2 h4
      exact ⟨e2, fun _ => e3, e4⟩
  | createImmediateTable table =>
    obtain ⟨h1, h2, _, h4⟩ := createImmediateTable_spec K s table hbelow
    obtain ⟨_, e2, e3, e4⟩ := createEvent_spec K s _ table.number _ _ hbelow h1 h2 h4
    exact ⟨e2, fun _ => e3, e4⟩
  | createLinSegTable table =>
    obtain ⟨h1, h2, _, h4⟩ := createLinSegTable_spec K s table hbelow
    obtain ⟨_, e2, e3, e4⟩ := createEvent_spec K s _ table.number _ _ hbelow h1 h2 h4
    exact ⟨e2, fun _ => e3, e4⟩
  | updateBaseTableNumber number =>
    have hcounter := (updateBaseTableNumber_spec s number).1
    simp only [Core.tableStep, TableEvent.number, TableEvent.isFresh, hcounter]
    exact ⟨le_max_left _ _, fun _ => le_max_right _ _, fun h => by simp at h⟩
  | getNewTableNumber =>
    have hnew := getNewTableNumber_eq s hbelow
    simp [Core.tableStep, hnew, TableEvent.number]

/-- After a call of a create function that reaches the engine, and after a
call of `updateBaseTableNumber`, the base table number equals the allocation
counter. -/
theorem tableStep_base (K : Constants) (s : Core) (op : TableOp)
    (hop : op.isAllocation = false) (hevent : (s.tableStep K op).2.isExisting = false) :
    (s.tableStep K op).1._config.baseTableNumber = (s.tableStep K op).1._nextTableNumber := by
  cases op with
  | createSampleTable table samples engineTables =>
    cases hexists : engineTables table.number with
    | true =>
      have hskip := createSampleTable_skip K (s.withEngineTables engineTables) table samples
        hexists
      simp [Core.tableStep, hskip, Core.createEvent, TableEvent.isExisting] at hevent
    | false =>
      have hnew : (s.withEngineTables engineTables)._wrapper.tableExists table.number =
          false := hexists
      by_cases h : table.number = K.TABLE_UNDEFINED
      · have hnew1 : (s.withEngineTables engineTables)._wrapper.tableExists
            K.TABLE_UNDEFINED = false := h ▸ hnew
        simp [Core.tableStep, Core.createSampleTable, hnew1, h,
          (updateBaseTableNumber_spec _ _).2]
      · simp [Core.tableStep, Core.createSampleTable, hnew, h,
          (updateBaseTableNumber_spec _ _).2]
  | createImmediateTable table =>
    by_cases h : table.number = K.TABLE_UNDEFINED <;>
      simp [Core.tableStep, Core.createImmediateTable, h, (updateBaseTableNumber_spec _ _).2]
  | createLinSegTable table =>
    by_cases h : table.number = K.TABLE_UNDEFINED <;>
      simp [Core.tableStep, Core.createLinSegTable, h, (updateBaseTableNumber_spec _ _).2]
  | updateBaseTableNumber number =>
    exact (updateBaseTableNumber_spec s number).2
  | getNewTableNumber => simp [TableOp.isAllocation] at hop

/-- The engine log after `createImmediateTable`: the log before and the
create command with the table as it is returned. -/
theorem createImmediateTable_calls (K : Constants) (s : Core) (table : mqImmediateTable) :
    (s.createImmediateTable K table).2._wrapper.calls = s._wrapper.calls ++
      [EngineCall.createImmediateTable (s.createImmediateTable K table).1] := by
  unfold Core.createImmediateTable
  dsimp only
  rw [updateBaseTableNumber_calls]
  split_ifs <;> rfl

/-- The engine log after `createLinSegTable`: the log before and the create
command with the table as it is returned. -/
theorem createLinSegTable_calls (K : Constants) (s : Core) (table : mqSegmentTable) :
    (s.createLinSegTable K table).2._wrapper.calls = s._wrapper.calls ++
      [EngineCall.createSegmentTable (s.createLinSegTable K table).1] := by
  unfold Core.createLinSegTable
  dsimp only
  rw [updateBaseTableNumber_calls]
  split_ifs <;> rfl

/-- The engine log after a `createSampleTable` that is not a no-op: the log
before and a create command with the number of the table as it is returned. -/
theorem createSampleTable_calls (K : Constants) (s : Core) (table : mqSampleTable)
    (samples : List ℚ) (hnew : s._wrapper.tableExists table.number = false) :
    ∃ call, (s.createSampleTable K table samples).2.2._wrapper.calls =
        s._wrapper.calls ++ [call] ∧
      call.createdNumber = some (s.createSampleTable K table samples).1.number := by
  unfold Core.createSampleTable
  rw [hnew]
  dsimp only
  rw [if_neg (by simp), updateBaseTableNumber_calls]
  split_ifs <;> exact ⟨_, rfl, rfl⟩

/-- The number of the event of a create call that has sent a command is the
number the call leaves in the table. -/
theorem createEvent_number (K : Constants) (before after : Core) (given stored : Int)
    (call : EngineCall) (hcalls : after._wrapper.calls = before._wrapper.calls ++ [call]) :
    (before.createEvent K after given stored).number = toU32 stored := by
  have hne : ¬ (after._wrapper.calls.length = before._wrapper.calls.length) := by
    rw [hcalls]
    simp
  unfold Core.createEvent
  rw [if_neg hne]
  split_ifs <;> rfl

/-- The event of a create call that sends a create command: the command is
the one call the engine receives, and it carries the number of the event. -/
theorem tableStep_sent (K : Constants) (s : Core) (op : TableOp)
    (hop : op.isCreate = true) (hevent : (s.tableStep K op).2.isExisting = false) :
    ∃ call number, (s.tableStep K op).1._wrapper.calls = s._wrapper.calls ++ [call] ∧
      call.createdNumber = some number ∧ toU32 number = (s.tableStep K op).2.number := by
  cases op with
  | createSampleTable table samples engineTables =>
    cases hexists : engineTables table.number with
    | true =>
      have hskip := createSampleTable_skip K (s.withEngineTables engineTables) table samples
        hexists
      simp [Core.tableStep, hskip, Core.createEvent, TableEvent.isExisting] at hevent
    | false =>
      obtain ⟨call, hcall, hnumber⟩ := createSampleTable_calls K
        (s.withEngineTables engineTables) table samples hexists
      exact ⟨call, _, hcall, hnumber,
        (createEvent_number K (s.withEngineTables engineTables) _ _ _ call hcall).symm⟩
  | createImmediateTable table =>
    exact ⟨_, _, createImmediateTable_calls K s table, rfl,
      (createEvent_number K s _ _ _ _ (createImmediateTable_calls K s table)).symm⟩
  | createLinSegTable table =>
    exact ⟨_, _, createLinSegTable_calls K s table, rfl,
      (createEvent_number K s _ _ _ _ (createLinSegTable_calls K s table)).symm⟩
  | updateBaseTableNumber number => simp [TableOp.isCreate] at hop
  | getNewTableNumber => simp [TableOp.isCreate] at hop

/-- Along a sequence of calls below `UINT_MAX` every fresh number is above the
counter at the start and above the number of every earlier event other than
`existing`. -/
theorem tableRun_spec (K : Constants) (ops : List TableOp) :
    ∀ s : Core, s.staysBelowMax K ops →
      List.Pairwise (fun earlier later =>
          later.isFresh = true → earlier.isExisting = false → earlier.number < later.number)
          (s.tableRun K ops).2 ∧
        ∀ e ∈ (s.tableRun K ops).2, e.isFresh = true → s._nextTableNumber < e.number := by
  induction ops with
  | nil =>
    intro s _
    simp [Core.tableRun]
  | cons op rest ih =>
    intro s hbelow
    obtain ⟨hnow, hlater⟩ := hbelow
    obtain ⟨hgrow, hle, hfresh⟩ := tableStep_spec K s op hnow
    obtain ⟨hpairRest, hfreshRest⟩ := ih (s.tableStep K op).1 hlater
    simp only [Core.tableRun]
    refine ⟨List.pairwise_cons.mpr ⟨?_, hpairRest⟩, ?_⟩
    · intro b hb hbfresh hexisting
      exact lt_of_le_of_lt (hle hexisting) (hfreshRest b hb hbfresh)
    · intro e he hefresh
      rcases List.mem_cons.mp he with h | h
      · rw [h] at hefresh ⊢
        exact hfresh hefresh
      · exact lt_of_le_of_lt hgrow (hfreshRest e h hefresh)

/-- Counterexample to C23 as stated, from counter and base table number 100.
After a call of `getNewTableNumber` the counter is 101; a `createSampleTable`
for table 120, which the engine reports as existing, returns at once and
leaves the base table number, 100, behind the counter.  And a
`createSampleTable` for table 101, which the engine reports as existing,
leaves the counter at 100: the `createLinSegTable` that follows, for a table
without number, gives its table the number 101. -/
theorem createSampleTable_existing_base_behind :
    ((sampleCore 0).tableRun sampleConstants
        [TableOp.getNewTableNumber,
          TableOp.createSampleTable { number := 120, size := 0, filename := "door.wav" }
            [] (fun _ => true)]).1._config.baseTableNumber = 100 ∧
      ((sampleCore 0).tableRun sampleConstants
        [TableOp.getNewTableNumber,
          TableOp.createSampleTable { number := 120, size := 0, filename := "door.wav" }
            [] (fun _ => true)]).1._nextTableNumber = 101 ∧
      ((sampleCore 0).tableRun sampleConstants
        [TableOp.createSampleTable { number := 101, size := 0, filename := "door.wav" }
            [] (fun number => number == 101),
          TableOp.createLinSegTable (sampleSegmentTable (-1))]).2.map
          (fun event => (event.isExisting, event.isFresh, event.number)) =
        [(true, false, 101), (false, true, 101)] ∧
      ((((sampleCore 0).withEngineTables (fun number => number == 101)).createSampleTable
          sampleConstants { number := 101, size := 0, filename := "door.wav" }
          []).2.2.createLinSegTable sampleConstants (sampleSegmentTable (-1))).1.number =
        101 := by
  refine ⟨rfl, rfl, rfl, rfl⟩

/-- Claim C23 as amended: along every sequence of `createSampleTable`,
`createImmediateTable`, `createLinSegTable`, `updateBaseTableNumber` and
`getNewTableNumber` calls in which the counter does not reach `UINT_MAX`,
whatever the engine answers to `tableExists`, every number freshly assigned by
`getNewTableNumber` (returned by it, or left by a create function in a table
that came without number) is strictly greater than every number assigned
earlier and than every number registered earlier, that is passed to
`updateBaseTableNumber` or left in a table that a create function has sent to
the engine; the number of a table for which `createSampleTable` has returned
at once is not registered.  After every call of `updateBaseTableNumber` and
every call of a create function that has sent its table to the engine, the
base table number equals the allocation counter; the table is sent under the
number the call leaves in it. -/
theorem tableRun_fresh_above (K : Constants) (s : Core) (ops : List TableOp)
    (hbelow : s.staysBelowMax K ops) :
    List.Pairwise (fun earlier later =>
        later.isFresh = true → earlier.isExisting = false → earlier.number < later.number)
        (s.tableRun K ops).2 ∧
      (∀ (state : Core) (op : TableOp), op.isAllocation = false →
        (state.tableStep K op).2.isExisting = false →
        (state.tableStep K op).1._config.baseTableNumber =
          (state.tableStep K op).1._nextTableNumber) ∧
      (∀ (state : Core) (op : TableOp), op.isCreate = true →
        (state.tableStep K op).2.isExisting = false →
        ∃ call number,
          (state.tableStep K op).1._wrapper.calls = state._wrapper.calls ++ [call] ∧
          call.createdNumber = some number ∧
          toU32 number = (state.tableStep K op).2.number) :=
  ⟨(tableRun_spec K ops s hbelow).1, fun state op h1 h2 => tableStep_base K state op h1 h2,
    fun state op h1 h2 => tableStep_sent K state op h1 h2⟩

/-- Witness of the amended C23: seven calls from counter 100.  The events are
fresh 101, registered 120, existing 101, fresh 121, registered 7, fresh 122
and registered 5. -/
theorem tableRun_fresh_above_witness :
    ((sampleCore 0).tableRun sampleConstants
        [TableOp.getNewTableNumber,
          TableOp.createSampleTable { number := 120, size := 0, filename := "door.wav" } []
            (fun _ => false),
          TableOp.createSampleTable { number := 101, size := 0, filename := "bell.wav" } []
            (fun number => number == 101),
          TableOp.createLinSegTable (sampleSegmentTable (-1)),
          TableOp.updateBaseTableNumber 7,
          TableOp.getNewTableNumber,
          TableOp.createImmediateTable (sampleImmediateTable 5)]).2.map
          (fun event => (event.isExisting, event.isFresh, event.number)) =
        [(false, true, 101), (false, false, 120), (true, false, 101), (false, true, 121),
          (false, false, 7), (false, true, 122), (false, false, 5)] ∧
      List.Pairwise (fun earlier later =>
        later.isFresh = true → earlier.isExisting = false → earlier.number < later.number)
        ((sampleCore 0).tableRun sampleConstants
          [TableOp.getNewTableNumber,
            TableOp.createSampleTable { number := 120, size := 0, filename := "door.wav" } []
              (fun _ => false),
            TableOp.createSampleTable { number := 101, size := 0, filename := "bell.wav" } []
              (fun number => number == 101),
            TableOp.createLinSegTable (sampleSegmentTable (-1)),
            TableOp.updateBaseTableNumber 7,
            TableOp.getNewTableNumber,
            TableOp.createImmediateTable (sampleImmediateTable 5)]).2 :=
  ⟨rfl, (tableRun_fresh_above sampleConstants (sampleCore 0)
    [TableOp.getNewTableNumber,
      TableOp.createSampleTable { number := 120, size := 0, filename := "door.wav" } []
        (fun _ => false),
      TableOp.createSampleTable { number := 101, size := 0, filename := "bell.wav" } []
        (fun number => number == 101),
      TableOp.createLinSegTable (sampleSegmentTable (-1)),
      TableOp.updateBaseTableNumber 7,
      TableOp.getNewTableNumber,
      TableOp.createImmediateTable (sampleImmediateTable 5)]
    (by
      simp only [Core.staysBelowMax]
      decide)).1⟩

end modiqus
